import Mathlib

/-!
Verification development for the task/workflow orchestration subsystem of the
ai-digital-human-team repository.

The Python sources are shallowly embedded as executable Lean definitions:

* `task_manager.py` — `Task`, `TaskStatus`, `TaskPriority`, `TaskManager`
  (priority queue scheduling, dependency gating, retry logic);
* `task_manager_enhanced.py` — `EnhancedTaskManager.check_timeouts`;
* `task_scheduler.py` — `TaskScheduler.execute_task`;
* `workflow_engine.py` — `WorkflowStep`, `Workflow`, `WorkflowEngine`;
* `workflow_pause.py` — `WorkflowPauseManager`;
* `storage/database.py` — the persisted row forms of `Task` and `Workflow`.

Modelling conventions:

* Python `uuid4` identifiers become naturals drawn from a monotone counter
  (`Sys.nextId`); uniqueness is what the code relies on.
* `datetime.now()` becomes a monotone clock (`Sys.clock`); every call to
  `now()` reads the clock and advances it by one, so distinct reads give
  strictly increasing timestamps, as on a real clock.
* Python dicts used as opaque payloads (`input_data`, `metadata`, `result`)
  become association lists `Obj := List (String × String)`; `json.dumps` /
  `json.loads` are mutually inverse on these, so persistence modelling keeps
  the structured value.  Python dict update semantics (replace value in
  place, append new keys) is `objInsert`.
* The `heapq` priority queue is modelled by its observable behaviour: a list
  kept sorted by the pushed key `(-priority, created_at, id)`; `heappush` is
  ordered insertion and `heappop` takes the head.
* Exceptions become `Except`; a caught exception is the `.error` branch.
-/

namespace ADH

/-- Opaque Python dict payload (input_data, metadata, result, worker output). -/
abbrev Obj := List (String × String)

/-- Python dict assignment `d[k] = v`: replace the value in place if the key
exists, otherwise append. -/
def objInsert (d : List (String × α)) (k : String) (v : α) : List (String × α) :=
  if d.any (fun p => p.1 = k) then
    d.map (fun p => if p.1 = k then (k, v) else p)
  else d ++ [(k, v)]

/-- `d.get(k)` on an association list. -/
def objGet (d : List (String × α)) (k : String) : Option α :=
  (d.find? (fun p => p.1 = k)).map (fun p => p.2)

/-- Python dict merge `{**a, **b}`: entries of `b` override those of `a`. -/
def objMerge (a b : List (String × α)) : List (String × α) :=
  b.foldl (fun acc p => objInsert acc p.1 p.2) a

/-- `TaskStatus` from task_manager.py. -/
inductive TaskStatus where
  | pending
  | assigned
  | inProgress
  | completed
  | failed
  | cancelled
deriving DecidableEq, Repr

/-- `TaskPriority` from task_manager.py. -/
inductive TaskPriority where
  | low
  | medium
  | high
  | urgent
deriving DecidableEq, Repr

/-- The `.value` ordinal of a `TaskPriority`. -/
def TaskPriority.val : TaskPriority → Nat
  | .low => 1
  | .medium => 2
  | .high => 3
  | .urgent => 4

/-- The `Task` object of task_manager.py (all attributes set in `__init__`). -/
structure Task where
  id : Nat
  taskType : String
  inputData : Obj
  assignedTo : Option String := none
  priority : TaskPriority
  dependencies : List Nat
  metadata : Obj
  status : TaskStatus := .pending
  createdAt : Nat
  assignedAt : Option Nat := none
  startedAt : Option Nat := none
  completedAt : Option Nat := none
  result : Option Obj := none
  error : Option String := none
  retryCount : Nat := 0
  maxRetries : Nat := 3
  timeoutSeconds : Option Nat := none
  lastActivity : Nat
deriving DecidableEq, Repr

/-- One entry of `TaskManager.task_queue`.  The Python code pushes the tuple
`(-task.priority.value, task.created_at.timestamp(), task.id)`; we store the
un-negated priority and build the heap order accordingly. -/
structure QEntry where
  pri : Nat
  created : Nat
  tid : Nat
deriving DecidableEq, Repr

/-- Heap order on queue entries: the tuple comparison of
`(-pri, created, tid)`, i.e. larger priority first, then earlier creation
time, then smaller id. -/
def QEntry.le (a b : QEntry) : Bool :=
  if a.pri = b.pri then
    if a.created = b.created then a.tid ≤ b.tid
    else a.created < b.created
  else b.pri < a.pri

/-- Ordered insertion keeping the queue sorted by `QEntry.le`
(the observable behaviour of `heapq.heappush`). -/
def qInsert (e : QEntry) : List QEntry → List QEntry
  | [] => [e]
  | f :: rest => if QEntry.le e f then e :: f :: rest else f :: qInsert e rest

/-- The mutable state of `TaskManager`: the task table (insertion-ordered,
keyed by id), the priority queue, and the `_task_queue_set` membership set. -/
structure TaskManager where
  tasks : List Task := []
  taskQueue : List QEntry := []
  queueSet : List Nat := []
deriving DecidableEq, Repr

/-- The whole mutable world: the manager plus the uuid counter, the monotone
clock, and `EnhancedTaskManager.last_timeout_check` (ignored by the plain
`TaskManager` operations). -/
structure Sys where
  tm : TaskManager := {}
  clock : Nat := 0
  nextId : Nat := 0
  lastTimeoutCheck : Nat := 0
deriving DecidableEq, Repr

/-- A fresh system: empty task table, empty queue. -/
def initSys : Sys := {}

/-- `datetime.now()`: read the clock and advance it. -/
def Sys.tick (s : Sys) : Nat × Sys :=
  (s.clock, { s with clock := s.clock + 1 })

/-- `TaskManager.get_task`. -/
def getTask (tm : TaskManager) (i : Nat) : Option Task :=
  tm.tasks.find? (fun t => t.id = i)

/-- One dependency is satisfied: the id is present and COMPLETED
(`dep_id in self.tasks and self.tasks[dep_id].status == COMPLETED`). -/
def depDone (tm : TaskManager) (d : Nat) : Bool :=
  match getTask tm d with
  | some t => t.status = .completed
  | none => false

/-- `TaskManager._add_to_queue`: push `(-priority, created_at, id)` unless the
id is already in `_task_queue_set`. -/
def addToQueue (tm : TaskManager) (t : Task) : TaskManager :=
  if t.id ∈ tm.queueSet then tm
  else { tm with
           taskQueue := qInsert ⟨t.priority.val, t.createdAt, t.id⟩ tm.taskQueue,
           queueSet := t.id :: tm.queueSet }

/-- `TaskManager._remove_from_queue`: rebuild the queue without the id. -/
def removeFromQueue (tm : TaskManager) (i : Nat) : TaskManager :=
  if i ∈ tm.queueSet then
    { tm with
        taskQueue := tm.taskQueue.filter (fun e => e.tid ≠ i),
        queueSet := tm.queueSet.filter (fun x => x ≠ i) }
  else tm

/-- The `Task` built by `Task.__init__` inside `create_task` (timestamps from
the two `now()` reads). -/
def newTask (s : Sys) (taskType : String) (inputData : Obj)
    (priority : TaskPriority) (dependencies : List Nat) (metadata : Obj) :
    Task :=
  { id := s.nextId, taskType := taskType, inputData := inputData,
    priority := priority, dependencies := dependencies, metadata := metadata,
    createdAt := s.clock, lastActivity := s.clock + 1 }

/-- `TaskManager.create_task`: build the `Task` (two `now()` reads, for
`created_at` and `last_activity`), insert it into the table, and enqueue it
iff the dependency list is empty or every listed dependency is already
COMPLETED (checked against the table that already contains the new task,
exactly as the Python does). -/
def createTask (s : Sys) (taskType : String) (inputData : Obj)
    (priority : TaskPriority) (dependencies : List Nat) (metadata : Obj) :
    Nat × Sys :=
  let i := s.nextId
  let (_, s1) := s.tick
  let (_, s2) := s1.tick
  let t : Task := newTask s taskType inputData priority dependencies metadata
  let tm := { s2.tm with tasks := s2.tm.tasks ++ [t] }
  let tm :=
    if dependencies.isEmpty || dependencies.all (depDone tm) then addToQueue tm t
    else tm
  (i, { s2 with tm := tm, nextId := s.nextId + 1 })

/-- Replace the task with the given id in the table (in-place mutation of the
Python object). -/
def updateTaskOnly (s : Sys) (i : Nat) (f : Task → Task) : Sys :=
  { s with tm := { s.tm with
      tasks := s.tm.tasks.map (fun u => if u.id = i then f u else u) } }

/-- `TaskManager.assign_task`: false if the task is absent or some dependency
is absent / not COMPLETED; otherwise `task.assign(role)` (sets `assigned_to`,
status ASSIGNED, `assigned_at = now()`) and removal from the queue.  Note the
current status of the task is never inspected. -/
def assignTask (s : Sys) (i : Nat) (role : String) : Bool × Sys :=
  match getTask s.tm i with
  | none => (false, s)
  | some t =>
    if t.dependencies ≠ [] ∧ ¬ (t.dependencies.all (depDone s.tm) = true) then
      (false, s)
    else
      let (n, s1) := s.tick
      let s2 := updateTaskOnly s1 i (fun u =>
        { u with assignedTo := some role, status := .assigned,
                 assignedAt := some n })
      (true, { s2 with tm := removeFromQueue s2.tm i })

/-- The pop loop of `TaskManager.get_next_task`: pop entries off the heap
(discarding each popped id from `_task_queue_set`) until one refers to an
existing PENDING task; return it together with the remaining queue/set. -/
def getNextTaskAux (tasks : List Task) :
    List QEntry → List Nat → Option Task × List QEntry × List Nat
  | [], qs => (none, [], qs)
  | e :: rest, qs =>
    let qs' := qs.filter (fun x => x ≠ e.tid)
    match tasks.find? (fun t => t.id = e.tid) with
    | none => getNextTaskAux tasks rest qs'
    | some t =>
      if t.status = .pending then (some t, rest, qs')
      else getNextTaskAux tasks rest qs'

/-- `TaskManager.get_next_task` (the `role_name` filter is a TODO/no-op in the
source). -/
def getNextTask (s : Sys) : Option Task × Sys :=
  let r := getNextTaskAux s.tm.tasks s.tm.taskQueue s.tm.queueSet
  (r.1, { s with tm := { s.tm with taskQueue := r.2.1, queueSet := r.2.2 } })

/-- `TaskManager._check_dependent_tasks`: after `completed_id` completes, scan
the task table in insertion order and enqueue every task that lists it, whose
dependencies are now all COMPLETED, and which is still PENDING. -/
def checkDependentTasks (tm : TaskManager) (completedId : Nat) : TaskManager :=
  tm.tasks.foldl
    (fun acc t =>
      if completedId ∈ t.dependencies
          ∧ t.dependencies.all (depDone tm) = true
          ∧ t.status = .pending
      then addToQueue acc t
      else acc)
    tm

/-- `Task.fail(error)` applied through the table: sets FAILED, `completed_at`
and `last_activity` from two `now()` reads, and the error message. -/
def failRaw (s : Sys) (i : Nat) (msg : String) : Sys :=
  let (n1, s1) := s.tick
  let (n2, s2) := s1.tick
  updateTaskOnly s2 i (fun u =>
    { u with status := .failed, completedAt := some n1,
             error := some msg, lastActivity := n2 })

/-- `TaskManager.update_task_status`.  IN_PROGRESS calls `task.start()`;
COMPLETED calls `task.complete(result or {})` then the dependent-task cascade;
FAILED calls `task.fail(error or default)` and then, if `retry_count <
max_retries`, increments the retry count, clears the error, resets the status
to PENDING and re-enqueues the task (`_add_to_queue` keys the entry by the
unchanged `priority`/`created_at`/`id`).  Other requested statuses change
nothing.  Returns false only when the task is absent. -/
def updateTaskStatus (s : Sys) (i : Nat) (st : TaskStatus)
    (result : Option Obj) (error : Option String) : Bool × Sys :=
  match getTask s.tm i with
  | none => (false, s)
  | some t =>
    if st = .inProgress then
      let (n1, s1) := s.tick
      let (n2, s2) := s1.tick
      (true, updateTaskOnly s2 i (fun u =>
        { u with status := .inProgress, startedAt := some n1,
                 lastActivity := n2 }))
    else if st = .completed then
      let (n1, s1) := s.tick
      let s2 := updateTaskOnly s1 i (fun u =>
        { u with status := .completed, completedAt := some n1,
                 result := some (result.getD []) })
      (true, { s2 with tm := checkDependentTasks s2.tm i })
    else if st = .failed then
      let s1 := failRaw s i (error.getD "未知错误")
      if t.retryCount < t.maxRetries then
        let s2 := updateTaskOnly s1 i (fun u =>
          { u with retryCount := u.retryCount + 1, status := .pending,
                   error := none })
        (true, { s2 with tm := addToQueue s2.tm t })
      else (true, s1)
    else (true, s)

/-- `Task.check_timeout`, with its internal `datetime.now()` read (only taken
when the guard passes, as in the source). -/
def checkTimeoutM (s : Sys) (t : Task) : Bool × Sys :=
  if t.timeoutSeconds = none ∨ t.status ≠ .inProgress then (false, s)
  else
    let (n, s1) := s.tick
    (decide (n - t.lastActivity > t.timeoutSeconds.getD 0), s1)

/-- `EnhancedTaskManager.check_timeouts`: rate-limited by
`timeout_check_interval = 60`; every timed-out task is failed *directly* via
`Task.fail` with a timeout message (this does not go through
`update_task_status`, so no retry logic runs). -/
def checkTimeouts (s : Sys) : List Nat × Sys :=
  let (now, s1) := s.tick
  if now - s1.lastTimeoutCheck < 60 then ([], s1)
  else
    let s2 := { s1 with lastTimeoutCheck := now }
    s2.tm.tasks.foldl
      (fun acc t =>
        let r := checkTimeoutM acc.2 t
        if r.1 then
          (acc.1 ++ [t.id],
           failRaw r.2 t.id
             ("任务执行超时（" ++ toString (t.timeoutSeconds.getD 0) ++ "秒）"))
        else (acc.1, r.2))
      (([] : List Nat), s2)

/-- Role mapping of `TaskScheduler` (task_type → role name). -/
def roleMapping (taskType : String) : Option String :=
  objGet
    [("create_plan", "项目经理"), ("track_progress", "项目经理"),
     ("generate_report", "项目经理"), ("identify_risks", "项目经理"),
     ("design_architecture", "系统架构师"), ("evaluate_technology", "系统架构师"),
     ("create_standards", "系统架构师"), ("solve_problem", "系统架构师"),
     ("implement_ui", "前端工程师"), ("optimize_performance", "前端工程师"),
     ("fix_bug", "前端工程师"),
     ("implement_api", "后端工程师"), ("optimize_query", "后端工程师"),
     ("monitor_system", "运维工程师"), ("handle_incident", "运维工程师")]
    taskType

/-- The roles for which `TaskScheduler._get_digital_human` can build an
instance (`role_classes` in the source). -/
def knownRoles : List String :=
  ["项目经理", "系统架构师", "前端工程师", "后端工程师", "运维工程师"]

/-- A worker capability: `digital_human.execute_task` given the task type and
input payload; a raised Python exception is the `.error` branch. -/
abbrev Worker := String → Obj → Except String Obj

/-- Truthiness of `result.get("success")` for a worker result object. -/
def successOf (o : Obj) : Bool :=
  objGet o "success" = some "true"

/-- `TaskScheduler.execute_task`.  Guards (missing task, unassigned task,
already-timed-out task, unknown digital human) return a structured error dict
without invoking the worker.  Otherwise the task is set IN_PROGRESS, the
worker runs, and the outcome is routed through `update_task_status`; an
exception raised by the worker is caught, converted into a FAILED status
update carrying the exception message, and returned as a structured failure
dict.  The best-effort knowledge-sink writes are external collaborators and
are not modelled. -/
def executeTask (worker : Worker) (s : Sys) (i : Nat) (timeout : Option Nat) :
    Obj × Sys :=
  match getTask s.tm i with
  | none => ([("success", "false"), ("error", "任务不存在: " ++ toString i)], s)
  | some t =>
    if t.assignedTo = none then
      ([("success", "false"), ("error", "任务未分配")], s)
    else
      let r := checkTimeoutM s t
      if r.1 then
        ([("success", "false"),
          ("error", "任务已超时（" ++ toString (t.timeoutSeconds.getD 0) ++ "秒）")],
         r.2)
      else if ¬ (knownRoles.contains (t.assignedTo.getD "")) then
        ([("success", "false"),
          ("error", "找不到数字人: " ++ t.assignedTo.getD "")], r.2)
      else
        -- `if timeout:` — a 0 value is falsy in Python
        let s1 :=
          match timeout with
          | some v =>
            if v = 0 then r.2
            else updateTaskOnly r.2 i (fun u => { u with timeoutSeconds := some v })
          | none => r.2
        let s2 := (updateTaskStatus s1 i .inProgress none none).2
        match worker t.taskType t.inputData with
        | .ok res =>
          if successOf res then
            (res, (updateTaskStatus s2 i .completed (some res) none).2)
          else
            (res, (updateTaskStatus s2 i .failed none
                     (some ((objGet res "error").getD "未知错误"))).2)
        | .error e =>
          ([("success", "false"), ("error", e)],
           (updateTaskStatus s2 i .failed none (some e)).2)

/-- `WorkflowStatus` from workflow_engine.py. -/
inductive WorkflowStatus where
  | created
  | running
  | paused
  | completed
  | failed
  | cancelled
deriving DecidableEq, Repr

/-- Workflow context: `context[step_id] = result` stores the task result
object (possibly `None`). -/
abbrev Ctx := List (String × Option Obj)

/-- `WorkflowStep` (all attributes set in `__init__`).  The `condition`
callable is kept as a Lean function over the workflow context. -/
structure WorkflowStep where
  stepId : String
  stepType : String
  roleName : String
  inputData : Obj
  condition : Option (Ctx → Bool) := none
  metadata : Obj := []
  status : TaskStatus := .pending
  taskId : Option Nat := none
  result : Option Obj := none
  error : Option String := none

/-- `WorkflowStep.can_execute`. -/
def canExecute (st : WorkflowStep) (ctx : Ctx) : Bool :=
  match st.condition with
  | some f => f ctx
  | none => true

/-- `Workflow` (all attributes set in `__init__`). -/
structure Workflow where
  id : Nat
  name : String
  description : String := ""
  steps : List WorkflowStep := []
  metadata : Obj := []
  status : WorkflowStatus := .created
  createdAt : Nat
  startedAt : Option Nat := none
  completedAt : Option Nat := none
  context : Ctx := []
  dependencies : List (String × List String) := []

/-- `Workflow.get_step`. -/
def getStep (w : Workflow) (sid : String) : Option WorkflowStep :=
  w.steps.find? (fun st => st.stepId = sid)

/-- In-place mutation of one step of a workflow. -/
def setStep (w : Workflow) (sid : String) (f : WorkflowStep → WorkflowStep) :
    Workflow :=
  { w with steps := w.steps.map (fun u => if u.stepId = sid then f u else u) }

/-- `Workflow.add_step`: appends a step named `step_{n+1}`; a non-empty
`depends_on` list is recorded in the dependency map (`if depends_on:`, so an
empty list records nothing). -/
def addStep (w : Workflow) (stepType roleName : String) (inputData : Obj)
    (dependsOn : List String) (condition : Option (Ctx → Bool))
    (metadata : Obj) : String × Workflow :=
  let sid := "step_" ++ toString (w.steps.length + 1)
  let st : WorkflowStep :=
    { stepId := sid, stepType := stepType, roleName := roleName,
      inputData := inputData, condition := condition, metadata := metadata }
  let w1 := { w with steps := w.steps ++ [st] }
  if dependsOn ≠ [] then
    (sid, { w1 with dependencies := objInsert w1.dependencies sid dependsOn })
  else (sid, w1)

/-- `Workflow.get_ready_steps`: a step is ready iff its status is neither
COMPLETED nor IN_PROGRESS, every recorded dependency names a COMPLETED step,
and its condition (if any) holds on the current context. -/
def getReadySteps (w : Workflow) : List WorkflowStep :=
  w.steps.filter (fun st =>
    !(st.status = .completed ∨ st.status = .inProgress)
    && (match objGet w.dependencies st.stepId with
        | some deps =>
          deps.all (fun d =>
            w.steps.any (fun s2 => s2.stepId = d ∧ s2.status = .completed))
        | none => true)
    && canExecute st w.context)

/-- `Workflow.update_step_result`: mark the step COMPLETED, store the result
on the step and in the context. -/
def updateStepResult (w : Workflow) (sid : String) (result : Option Obj) :
    Workflow :=
  match getStep w sid with
  | none => w
  | some _ =>
    let w1 := setStep w sid (fun u =>
      { u with status := .completed, result := result })
    { w1 with context := objInsert w1.context sid result }

/-- `Workflow.is_completed`: every step COMPLETED (vacuously true when there
are no steps). -/
def isCompleted (w : Workflow) : Bool :=
  w.steps.all (fun st => st.status = .completed)

/-- `WorkflowEngine` state: the shared task-manager world plus the workflow
table. -/
structure Engine where
  sys : Sys := initSys
  workflows : List Workflow := []

/-- A fresh engine. -/
def initEngine : Engine := {}

/-- Find a workflow by id. -/
def findWf (e : Engine) (wid : Nat) : Option Workflow :=
  e.workflows.find? (fun w => w.id = wid)

/-- In-place mutation of one workflow of the engine. -/
def setWf (e : Engine) (wid : Nat) (w : Workflow) : Engine :=
  { e with workflows := e.workflows.map (fun u => if u.id = wid then w else u) }

/-- `WorkflowEngine.create_workflow` (plus `Workflow.__init__`): a fresh id
from the uuid source and `created_at = now()`. -/
def createWorkflow (e : Engine) (name description : String) : Nat × Engine :=
  let wid := e.sys.nextId
  let (c, s1) := e.sys.tick
  let w : Workflow := { id := wid, name := name, description := description,
                        createdAt := c }
  (wid, { e with sys := { s1 with nextId := s1.nextId + 1 },
                 workflows := e.workflows ++ [w] })

/-- `Workflow.add_step` invoked on a workflow owned by the engine. -/
def engineAddStep (e : Engine) (wid : Nat) (stepType roleName : String)
    (inputData : Obj) (dependsOn : List String)
    (condition : Option (Ctx → Bool)) (metadata : Obj) : String × Engine :=
  match findWf e wid with
  | none => ("", e)
  | some w =>
    let r := addStep w stepType roleName inputData dependsOn condition metadata
    (r.1, setWf e wid r.2)

/-- The body of the loop in `WorkflowEngine._create_tasks_for_ready_steps`
for one ready step: build the dependency list from the dep steps' recorded
`task_id`s, create the task (priority defaults to MEDIUM; metadata is
`{"workflow_id": ..., "step_id": ..., **step.metadata}`), assign it to the
step's role, and record `task_id` / ASSIGNED on the step.  The workflow and
step are re-read so that mutations from earlier loop iterations are seen,
matching the Python loop over live objects. -/
def materializeStep (e : Engine) (wid : Nat) (sid : String) : Engine :=
  match findWf e wid with
  | none => e
  | some w =>
    match getStep w sid with
    | none => e
    | some st =>
      let deps :=
        match objGet w.dependencies sid with
        | some ds =>
          ds.foldl (fun acc d =>
            match getStep w d with
            | some dstep =>
              match dstep.taskId with
              | some ti => acc ++ [ti]
              | none => acc
            | none => acc) []
        | none => []
      let md := objMerge [("workflow_id", toString wid), ("step_id", sid)]
                  st.metadata
      let r := createTask e.sys st.stepType st.inputData .medium deps md
      let s1 := (assignTask r.2 r.1 st.roleName).2
      let e1 := { e with sys := s1 }
      match findWf e1 wid with
      | none => e1
      | some w1 =>
        setWf e1 wid (setStep w1 sid (fun u =>
          { u with taskId := some r.1, status := .assigned }))

/-- `WorkflowEngine._create_tasks_for_ready_steps`: snapshot the ready list,
then materialize each ready step in order. -/
def createTasksForReadySteps (e : Engine) (wid : Nat) : Engine :=
  match findWf e wid with
  | none => e
  | some w =>
    ((getReadySteps w).map (fun st => st.stepId)).foldl
      (fun acc sid => materializeStep acc wid sid) e

/-- `WorkflowEngine.start_workflow`: set RUNNING and `started_at = now()`,
then materialize the initially ready steps. -/
def startWorkflow (e : Engine) (wid : Nat) : Bool × Engine :=
  match findWf e wid with
  | none => (false, e)
  | some w =>
    let (n, s1) := e.sys.tick
    let e1 := setWf { e with sys := s1 } wid
      { w with status := .running, startedAt := some n }
    (true, createTasksForReadySteps e1 wid)

/-- The per-step synchronization loop body of `WorkflowEngine.update_workflow`:
pull the task's status into the step; on COMPLETED also store the result (on
the step and, via `update_step_result`, in the context); on FAILED store the
error. -/
def syncStep (sys : Sys) (w : Workflow) (sid : String) : Workflow :=
  match getStep w sid with
  | none => w
  | some st =>
    match st.taskId with
    | none => w
    | some tid =>
      match getTask sys.tm tid with
      | none => w
      | some task =>
        let w1 := setStep w sid (fun u => { u with status := task.status })
        if task.status = .completed then
          updateStepResult (setStep w1 sid (fun u => { u with result := task.result }))
            sid task.result
        else if task.status = .failed then
          setStep w1 sid (fun u => { u with error := task.error })
        else w1

/-- `WorkflowEngine.update_workflow`: synchronize every step from its task;
then, only if the workflow is RUNNING, materialize newly ready steps and mark
the workflow COMPLETED (with `completed_at = now()`) once `is_completed()`
holds.  A PAUSED workflow only gets the synchronization pass. -/
def updateWorkflow (e : Engine) (wid : Nat) : Engine :=
  match findWf e wid with
  | none => e
  | some w0 =>
    let w := (w0.steps.map (fun st => st.stepId)).foldl
      (fun acc sid => syncStep e.sys acc sid) w0
    let e1 := setWf e wid w
    if w.status = .running then
      let e2 := createTasksForReadySteps e1 wid
      match findWf e2 wid with
      | none => e2
      | some w2 =>
        if isCompleted w2 then
          let (n, s1) := e2.sys.tick
          setWf { e2 with sys := s1 } wid
            { w2 with status := .completed, completedAt := some n }
        else e2
    else e1

/-- The pause record stored by `WorkflowPauseManager.pause_workflow`. -/
structure PauseInfo where
  reason : String
  pausedAt : Nat
  runningSteps : List String
deriving Repr

/-- `WorkflowPauseManager` state on top of the engine. -/
structure PEngine where
  eng : Engine := initEngine
  paused : List (Nat × PauseInfo) := []

/-- `WorkflowPauseManager.pause_workflow`: only a RUNNING workflow can be
paused; record the pause info (reason, `paused_at = now()`, the IN_PROGRESS
step ids) and flip the status to PAUSED. -/
def pauseWorkflow (p : PEngine) (wid : Nat) (reason : String) :
    Bool × PEngine :=
  match findWf p.eng wid with
  | none => (false, p)
  | some w =>
    if w.status ≠ .running then (false, p)
    else
      let (n, s1) := p.eng.sys.tick
      let info : PauseInfo :=
        { reason := reason, pausedAt := n,
          runningSteps := (w.steps.filter
            (fun st => st.status = .inProgress)).map (fun st => st.stepId) }
      let e1 := setWf { p.eng with sys := s1 } wid { w with status := .paused }
      (true, { eng := e1, paused := p.paused ++ [(wid, info)] })

/-- `WorkflowPauseManager.resume_workflow`: only a PAUSED workflow can be
resumed; drop the pause record, flip to RUNNING, and immediately run
`update_workflow` to catch up. -/
def resumeWorkflow (p : PEngine) (wid : Nat) : Bool × PEngine :=
  match findWf p.eng wid with
  | none => (false, p)
  | some w =>
    if w.status ≠ .paused then (false, p)
    else
      let e1 := setWf p.eng wid { w with status := .running }
      (true, { eng := updateWorkflow e1 wid,
               paused := p.paused.filter (fun q => q.1 ≠ wid) })

/-- Attribute lookup for `workflow.template_name` in `Database.save_workflow`
(storage/database.py).  `Workflow.__init__` in workflow_engine.py assigns
`id`, `name`, `description`, `steps`, `metadata`, `status`, `created_at`,
`started_at`, `completed_at`, `context` and `dependencies`, and no code in the
repository ever sets a `template_name` attribute on a `Workflow` instance, so
this attribute access raises `AttributeError`; the failed lookup is `none`. -/
def Workflow.templateNameAttr (_ : Workflow) : Option String := none

/-- Attribute lookup for `step.dependencies` in `Database.save_workflow`.
`WorkflowStep.__init__` assigns `step_id`, `step_type`, `role_name`,
`input_data`, `condition`, `metadata`, `status`, `task_id`, `result` and
`error`; step dependencies live on the `Workflow`, not the step, so this
attribute access raises `AttributeError`; the failed lookup is `none`. -/
def WorkflowStep.dependenciesAttr (_ : WorkflowStep) : Option (List String) :=
  none

/-- `Database.save_workflow`: the whole body runs under `try/except` and
returns False on any exception.  Building the INSERT parameters reads
`workflow.template_name` (and, for each step row, `step.dependencies`), so the
attribute lookups must all succeed for the save to commit and return True. -/
def saveWorkflow (w : Workflow) : Bool :=
  (w.templateNameAttr).isSome
    && w.steps.all (fun st => (st.dependenciesAttr).isSome)

/-- The `result` column written by `Database.save_task`:
`json.dumps(task.result, ...) if task.result else None` — both a missing
result and a falsy (empty-dict) result are stored as NULL. -/
def savedResultColumn (t : Task) : Option Obj :=
  match t.result with
  | none => none
  | some d => if d = [] then none else some d

/-- The `result` attribute reconstructed by `Database.load_tasks`:
`json.loads(column)` when the column is non-NULL, otherwise None. -/
def loadedResult (t : Task) : Option Obj :=
  savedResultColumn t

/-! ### Observers used in the statements -/

/-- Status of the task with the given id, if present. -/
def statusOf (s : Sys) (i : Nat) : Option TaskStatus :=
  (getTask s.tm i).map Task.status

/-- Retry count of the task with the given id, if present. -/
def retryOf (s : Sys) (i : Nat) : Option Nat :=
  (getTask s.tm i).map Task.retryCount

/-- Error field of the task with the given id, if present. -/
def errorOf (s : Sys) (i : Nat) : Option (Option String) :=
  (getTask s.tm i).map Task.error

/-- The ids currently sitting in the pending priority queue. -/
def queueIds (s : Sys) : List Nat :=
  s.tm.taskQueue.map QEntry.tid

/-! ### Helper lemmas about the queue -/

theorem mem_qInsert {a e : QEntry} {l : List QEntry} :
    a ∈ qInsert e l ↔ a = e ∨ a ∈ l := by
  induction l with
  | nil => simp [qInsert]
  | cons f rest ih =>
    by_cases h : QEntry.le e f
    · simp [qInsert, h]
    · simp [qInsert, h, ih]; tauto

theorem qIds_addToQueue {tm : TaskManager} {t : Task} {j : Nat}
    (h : j ∈ (addToQueue tm t).taskQueue.map QEntry.tid) :
    j = t.id ∨ j ∈ tm.taskQueue.map QEntry.tid := by
  unfold addToQueue at h
  by_cases hm : t.id ∈ tm.queueSet
  · rw [if_pos hm] at h; exact Or.inr h
  · rw [if_neg hm] at h
    rcases List.mem_map.mp h with ⟨e, he, rfl⟩
    rcases mem_qInsert.mp he with rfl | hmem
    · exact Or.inl rfl
    · exact Or.inr (List.mem_map_of_mem QEntry.tid hmem)

theorem tid_mem_addToQueue {tm : TaskManager} {t : Task}
    (hset : t.id ∉ tm.queueSet) :
    t.id ∈ (addToQueue tm t).taskQueue.map QEntry.tid := by
  unfold addToQueue
  rw [if_neg hset]
  exact List.mem_map.mpr
    ⟨⟨t.priority.val, t.createdAt, t.id⟩, mem_qInsert.mpr (Or.inl rfl), rfl⟩

theorem foldl_inv {α β : Type _} (P : β → Prop) (f : β → α → β) (l : List α)
    (acc : β) (h0 : P acc) (hstep : ∀ b a, a ∈ l → P b → P (f b a)) :
    P (l.foldl f acc) := by
  induction l generalizing acc with
  | nil => exact h0
  | cons a rest ih =>
    exact ih (f acc a) (hstep acc a (List.mem_cons_self a rest) h0)
      (fun b x hx hb => hstep b x (List.mem_cons_of_mem a hx) hb)

/-- Ids enqueued by the dependent-task cascade: anything in the queue
afterwards was already queued, or belongs to a PENDING task in the table all
of whose dependencies are COMPLETED. -/
theorem qIds_checkDependentTasks {tm : TaskManager} {c j : Nat}
    (h : j ∈ (checkDependentTasks tm c).taskQueue.map QEntry.tid) :
    j ∈ tm.taskQueue.map QEntry.tid ∨
      ∃ t ∈ tm.tasks, t.id = j ∧ t.status = .pending ∧
        t.dependencies.all (depDone tm) = true := by
  unfold checkDependentTasks at h
  revert h
  refine foldl_inv
    (fun b => j ∈ b.taskQueue.map QEntry.tid →
      j ∈ tm.taskQueue.map QEntry.tid ∨
        ∃ t ∈ tm.tasks, t.id = j ∧ t.status = .pending ∧
          t.dependencies.all (depDone tm) = true)
    _ tm.tasks tm (fun h => Or.inl h) ?_
  intro b t ht hb h
  by_cases hg : c ∈ t.dependencies ∧ t.dependencies.all (depDone tm) = true
      ∧ t.status = .pending
  · rw [if_pos hg] at h
    rcases qIds_addToQueue h with rfl | hq
    · exact Or.inr ⟨t, ht, rfl, hg.2.2, hg.2.1⟩
    · exact hb hq
  · rw [if_neg hg] at h
    exact hb h

/-! ### Computation lemmas unfolding the operations -/

/-- The task table directly after `create_task` inserts the new task. -/
def tmWithNew (s : Sys) (ty : String) (inp : Obj) (p : TaskPriority)
    (deps : List Nat) (md : Obj) : TaskManager :=
  { s.tm with tasks := s.tm.tasks ++ [newTask s ty inp p deps md] }

/-- The enqueue condition of `create_task`. -/
def createGate (s : Sys) (ty : String) (inp : Obj) (p : TaskPriority)
    (deps : List Nat) (md : Obj) : Bool :=
  deps.isEmpty || deps.all (depDone (tmWithNew s ty inp p deps md))

/-- Unfolded form of `createTask`. -/
theorem createTask_def (s : Sys) (ty : String) (inp : Obj) (p : TaskPriority)
    (deps : List Nat) (md : Obj) :
    createTask s ty inp p deps md =
      (s.nextId,
        { s with
            tm :=
              (if createGate s ty inp p deps md
               then addToQueue (tmWithNew s ty inp p deps md)
                      (newTask s ty inp p deps md)
               else tmWithNew s ty inp p deps md),
            clock := s.clock + 2, nextId := s.nextId + 1 }) := rfl

/-- The tasks table ignores the queue bookkeeping of `addToQueue`. -/
theorem tasks_addToQueue (tm : TaskManager) (t : Task) :
    (addToQueue tm t).tasks = tm.tasks := by
  unfold addToQueue; split <;> rfl

/-- `depDone` only looks at the tasks table. -/
theorem depDone_addToQueue (tm : TaskManager) (t : Task) :
    depDone (addToQueue tm t) = depDone tm := by
  funext d; unfold depDone getTask; rw [tasks_addToQueue]

/-- The cascade only touches the queue, never the task table. -/
theorem tasks_checkDependentTasks (tm : TaskManager) (c : Nat) :
    (checkDependentTasks tm c).tasks = tm.tasks := by
  unfold checkDependentTasks
  refine foldl_inv (fun b => b.tasks = tm.tasks) _ tm.tasks tm rfl ?_
  intro b t _ hb
  split
  · rw [tasks_addToQueue]; exact hb
  · exact hb

/-- The table of the state created by `create_task`. -/
theorem tasks_createTask (s : Sys) (ty : String) (inp : Obj)
    (p : TaskPriority) (deps : List Nat) (md : Obj) :
    (createTask s ty inp p deps md).2.tm.tasks =
      (tmWithNew s ty inp p deps md).tasks := by
  rw [createTask_def]
  dsimp only
  split
  · rw [tasks_addToQueue]
  · rfl

theorem depDone_createTask (s : Sys) (ty : String) (inp : Obj)
    (p : TaskPriority) (deps : List Nat) (md : Obj) :
    depDone (createTask s ty inp p deps md).2.tm =
      depDone (tmWithNew s ty inp p deps md) := by
  funext d; unfold depDone getTask; rw [tasks_createTask]

/-- Unfolded IN_PROGRESS branch of `update_task_status` (`task.start()`). -/
def startSys (s : Sys) (i : Nat) : Sys :=
  updateTaskOnly { s with clock := s.clock + 2 } i (fun u =>
    { u with status := .inProgress, startedAt := some s.clock,
             lastActivity := s.clock + 1 })

theorem updateTaskStatus_inProgress {s : Sys} {i : Nat} {t : Task}
    (hfind : getTask s.tm i = some t) (r : Option Obj) (e : Option String) :
    updateTaskStatus s i .inProgress r e = (true, startSys s i) := by
  unfold updateTaskStatus
  rw [hfind]
  rfl

/-- Unfolded COMPLETED branch of `update_task_status` (`task.complete` plus
the dependent-task cascade). -/
def completeSys (s : Sys) (i : Nat) (r : Option Obj) : Sys :=
  let s2 := updateTaskOnly { s with clock := s.clock + 1 } i (fun u =>
    { u with status := .completed, completedAt := some s.clock,
             result := some (r.getD []) })
  { s2 with tm := checkDependentTasks s2.tm i }

theorem updateTaskStatus_completed {s : Sys} {i : Nat} {t : Task}
    (hfind : getTask s.tm i = some t) (r : Option Obj) (e : Option String) :
    updateTaskStatus s i .completed r e = (true, completeSys s i r) := by
  unfold updateTaskStatus
  rw [hfind]
  rfl

/-- Unfolded FAILED branch of `update_task_status` when a retry is left:
`task.fail`, then retry bookkeeping and the re-enqueue keyed by the original
priority / creation time / id carried by `t`. -/
def failedRetrySys (s : Sys) (i : Nat) (msg : String) (t : Task) : Sys :=
  let s2 := updateTaskOnly (failRaw s i msg) i (fun u =>
    { u with retryCount := u.retryCount + 1, status := .pending,
             error := none })
  { s2 with tm := addToQueue s2.tm t }

theorem updateTaskStatus_failed_retry {s : Sys} {i : Nat} {t : Task}
    (hfind : getTask s.tm i = some t) (hr : t.retryCount < t.maxRetries)
    (r : Option Obj) (e : Option String) :
    updateTaskStatus s i .failed r e =
      (true, failedRetrySys s i (e.getD "未知错误") t) := by
  unfold updateTaskStatus
  rw [hfind]
  dsimp only
  rw [if_neg (by decide : ¬ (TaskStatus.failed = TaskStatus.inProgress)),
      if_neg (by decide : ¬ (TaskStatus.failed = TaskStatus.completed)),
      if_pos (rfl : TaskStatus.failed = TaskStatus.failed)]
  rw [if_pos hr]
  rfl

theorem updateTaskStatus_failed_exhausted {s : Sys} {i : Nat} {t : Task}
    (hfind : getTask s.tm i = some t) (hr : ¬ t.retryCount < t.maxRetries)
    (r : Option Obj) (e : Option String) :
    updateTaskStatus s i .failed r e =
      (true, failRaw s i (e.getD "未知错误")) := by
  unfold updateTaskStatus
  rw [hfind]
  dsimp only
  rw [if_neg (by decide : ¬ (TaskStatus.failed = TaskStatus.inProgress)),
      if_neg (by decide : ¬ (TaskStatus.failed = TaskStatus.completed)),
      if_pos (rfl : TaskStatus.failed = TaskStatus.failed)]
  rw [if_neg hr]

theorem updateTaskStatus_absent {s : Sys} {i : Nat}
    (hfind : getTask s.tm i = none) (st : TaskStatus) (r : Option Obj)
    (e : Option String) :
    updateTaskStatus s i st r e = (false, s) := by
  unfold updateTaskStatus
  rw [hfind]

/-! ### C1: dependency gating -/

/-- Scenario used for C1: task 0 («d», MEDIUM, no deps), then task 1 («t»,
URGENT, depending on task 0), then a direct FAILED status update on task 1. -/
def c1Sys : Sys :=
  let r1 := createTask initSys "d" [] .medium [] []
  let r2 := createTask r1.2 "t" [] .urgent [0] []
  (updateTaskStatus r2.2 1 .failed none (some "boom")).2

/-- C1 is false as stated: task 1 was created with dependency list `[0]`,
task 0 has never reached COMPLETED (it is still PENDING), yet after a direct
`update_task_status(task1, FAILED, ...)` the retry path has re-enqueued
task 1 and `get_next_task` returns it. -/
theorem c1_counterexample :
    ((getTask c1Sys.tm 1).map Task.dependencies = some [0]) ∧
    statusOf c1Sys 0 = some .pending ∧
    1 ∈ queueIds c1Sys ∧
    (getNextTask c1Sys).1.map Task.id = some 1 := by
  refine ⟨rfl, rfl, ?_, rfl⟩
  decide

theorem c1a (s : Sys) (ty : String) (inp : Obj) (p : TaskPriority)
    (deps : List Nat) (md : Obj)
    (hfresh : ∀ e ∈ s.tm.taskQueue, e.tid ≠ s.nextId)
    (hne : deps ≠ [])
    (hall : deps.all (depDone (createTask s ty inp p deps md).2.tm) = false) :
    (createTask s ty inp p deps md).1 ∉
      queueIds (createTask s ty inp p deps md).2 := by
  have hempty : deps.isEmpty = false := by
    cases deps with
    | nil => exact absurd rfl hne
    | cons a l => rfl
  rw [depDone_createTask] at hall
  have hgate : createGate s ty inp p deps md = false := by
    unfold createGate
    rw [hempty, hall]
    rfl
  rw [createTask_def]
  simp only [queueIds]
  rw [if_neg (by simp [hgate])]
  intro hmem
  rcases List.mem_map.mp hmem with ⟨e, he, htid⟩
  exact hfresh e he htid

theorem c1b (s : Sys) (ty : String) (inp : Obj) (p : TaskPriority)
    (deps : List Nat) (md : Obj)
    (hset : s.nextId ∉ s.tm.queueSet)
    (hok : deps = [] ∨
      deps.all (depDone (createTask s ty inp p deps md).2.tm) = true) :
    (createTask s ty inp p deps md).1 ∈
      queueIds (createTask s ty inp p deps md).2 := by
  rw [depDone_createTask] at hok
  have hgate : createGate s ty inp p deps md = true := by
    unfold createGate
    rcases hok with rfl | hall
    · rfl
    · rw [hall]
      simp
  rw [createTask_def]
  simp only [queueIds]
  rw [if_pos (by simp [hgate])]
  exact tid_mem_addToQueue hset

theorem c1c (s : Sys) (i : Nat) (role : String) (t : Task)
    (hfind : getTask s.tm i = some t)
    (hne : t.dependencies ≠ [])
    (hall : t.dependencies.all (depDone s.tm) = false) :
    assignTask s i role = (false, s) := by
  unfold assignTask
  rw [hfind]
  exact if_pos ⟨hne, by simp [hall]⟩

theorem c1d (s : Sys) (i : Nat) (r : Option Obj) (j : Nat)
    (hmem : j ∈ queueIds (updateTaskStatus s i .completed r none).2) :
    j ∈ queueIds s ∨
      ∃ t ∈ (updateTaskStatus s i .completed r none).2.tm.tasks,
        t.id = j ∧ t.status = .pending ∧
        t.dependencies.all
          (depDone (updateTaskStatus s i .completed r none).2.tm) = true := by
  cases hfind : getTask s.tm i with
  | none =>
    rw [updateTaskStatus_absent hfind] at hmem
    exact Or.inl hmem
  | some t =>
    rw [updateTaskStatus_completed hfind] at hmem ⊢
    simp only [queueIds, completeSys] at hmem ⊢
    have htasks := tasks_checkDependentTasks
      (updateTaskOnly { s with clock := s.clock + 1 } i (fun u =>
        { u with status := .completed, completedAt := some s.clock,
                 result := some (r.getD []) })).tm i
    have hdep : depDone (checkDependentTasks
        (updateTaskOnly { s with clock := s.clock + 1 } i (fun u =>
          { u with status := .completed, completedAt := some s.clock,
                   result := some (r.getD []) })).tm i) =
        depDone (updateTaskOnly { s with clock := s.clock + 1 } i (fun u =>
          { u with status := .completed, completedAt := some s.clock,
                   result := some (r.getD []) })).tm := by
      funext d; unfold depDone getTask; rw [tasks_checkDependentTasks]
    rcases qIds_checkDependentTasks hmem with hq | ⟨t2, ht2, hid, hst, hdeps⟩
    · exact Or.inl hq
    · refine Or.inr ⟨t2, ?_, hid, hst, ?_⟩
      · rw [htasks]; exact ht2
      · rw [hdep]; exact hdeps

/-- C1 (amended): dependency gating holds on every path except the FAILED
retry re-enqueue.  (a) `create_task` does not enqueue a task whose non-empty
dependency list is not fully COMPLETED; (b) it does enqueue the task when the
list is empty or fully COMPLETED; (c) `assign_task` returns false, changing
nothing, whenever a dependency is absent or not COMPLETED; (d) the
completion cascade of `update_task_status` only enqueues PENDING tasks whose
dependencies are all COMPLETED.  (The retry path of
`update_task_status(FAILED)` re-enqueues without re-checking dependencies —
see the counterexample.) -/
theorem c1_dependency_gating :
    (∀ (s : Sys) (ty : String) (inp : Obj) (p : TaskPriority)
        (deps : List Nat) (md : Obj),
      (∀ e ∈ s.tm.taskQueue, e.tid ≠ s.nextId) →
      deps ≠ [] →
      deps.all (depDone (createTask s ty inp p deps md).2.tm) = false →
      (createTask s ty inp p deps md).1 ∉
        queueIds (createTask s ty inp p deps md).2) ∧
    (∀ (s : Sys) (ty : String) (inp : Obj) (p : TaskPriority)
        (deps : List Nat) (md : Obj),
      s.nextId ∉ s.tm.queueSet →
      (deps = [] ∨
        deps.all (depDone (createTask s ty inp p deps md).2.tm) = true) →
      (createTask s ty inp p deps md).1 ∈
        queueIds (createTask s ty inp p deps md).2) ∧
    (∀ (s : Sys) (i : Nat) (role : String) (t : Task),
      getTask s.tm i = some t →
      t.dependencies ≠ [] →
      t.dependencies.all (depDone s.tm) = false →
      assignTask s i role = (false, s)) ∧
    (∀ (s : Sys) (i : Nat) (r : Option Obj) (j : Nat),
      j ∈ queueIds (updateTaskStatus s i .completed r none).2 →
      j ∈ queueIds s ∨
        ∃ t ∈ (updateTaskStatus s i .completed r none).2.tm.tasks,
          t.id = j ∧ t.status = .pending ∧
          t.dependencies.all
            (depDone (updateTaskStatus s i .completed r none).2.tm) = true) :=
  ⟨c1a, c1b, c1c, c1d⟩


/-- Concrete state after creating task 0 («d», MEDIUM, no dependencies). -/
def c1WitA : Sys := (createTask initSys "d" [] .medium [] []).2

/-- Concrete state after additionally creating task 1 («t», URGENT,
depending on the still-PENDING task 0). -/
def c1WitB : Sys := (createTask c1WitA "t" [] .urgent [0] []).2

/-- The literal value of task 1 in `c1WitB`. -/
def c1WitTask : Task :=
  { id := 1, taskType := "t", inputData := [], priority := .urgent,
    dependencies := [0], metadata := [], createdAt := 2, lastActivity := 3 }

theorem c1_dependency_gating_witness :
    (1 ∉ queueIds (createTask c1WitA "t" [] .urgent [0] []).2) ∧
    (0 ∈ queueIds (createTask initSys "d" [] .medium [] []).2) ∧
    (assignTask c1WitB 1 "某角色" = (false, c1WitB)) ∧
    (1 ∈ queueIds c1WitB ∨
      ∃ t ∈ (updateTaskStatus c1WitB 0 .completed none none).2.tm.tasks,
        t.id = 1 ∧ t.status = .pending ∧
        t.dependencies.all
          (depDone (updateTaskStatus c1WitB 0 .completed none none).2.tm) = true) :=
  ⟨c1_dependency_gating.1 c1WitA "t" [] .urgent [0] [] (by decide) (by decide)
      (by decide),
   c1_dependency_gating.2.1 initSys "d" [] .medium [] [] (by decide)
      (Or.inl rfl),
   c1_dependency_gating.2.2.1 c1WitB 1 "某角色" c1WitTask (by decide)
      (by decide) (by decide),
   c1_dependency_gating.2.2.2 c1WitB 0 none 1 (by decide)⟩

/-! ### C3: retry bound -/

/-- One failing execution attempt: assign, start (IN_PROGRESS), then a FAILED
status update — the shape driven by `TaskScheduler.execute_task` when the
worker fails. -/
def failAttempt (s : Sys) (i : Nat) (role msg : String) : Sys :=
  let s1 := (assignTask s i role).2
  let s2 := (updateTaskStatus s1 i .inProgress none none).2
  (updateTaskStatus s2 i .failed none (some msg)).2

/-- The state after creating one dependency-free task and running `n` failing
attempts on it. -/
def c3S (ty : String) (inp : Obj) (p : TaskPriority) (md : Obj)
    (role msg : String) : Nat → Sys
  | 0 => (createTask initSys ty inp p [] md).2
  | n + 1 => failAttempt (c3S ty inp p md role msg n) 0 role msg

/-- `find?` over a table whose existing entries all miss the predicate finds
the appended element. -/
theorem find?_append_singleton {α : Type _} {p : α → Bool} {l : List α} {a : α}
    (h : ∀ x ∈ l, p x = false) (ha : p a = true) :
    (l ++ [a]).find? p = some a := by
  induction l with
  | nil => simp [List.find?, ha]
  | cons x xs ih =>
    have hx := h x (List.mem_cons_self x xs)
    simp only [List.cons_append, List.find?, hx]
    exact ih (fun y hy => h y (List.mem_cons_of_mem x hy))

/-- After `_add_to_queue(task)` the task id is in the queue, provided the
`_task_queue_set` bookkeeping implies queue membership. -/
theorem mem_qIds_addToQueue_self {tm : TaskManager} {t : Task}
    (hcoh : t.id ∈ tm.queueSet → t.id ∈ tm.taskQueue.map QEntry.tid) :
    t.id ∈ (addToQueue tm t).taskQueue.map QEntry.tid := by
  unfold addToQueue
  by_cases hset : t.id ∈ tm.queueSet
  · rw [if_pos hset]; exact hcoh hset
  · rw [if_neg hset]
    exact List.mem_map.mpr
      ⟨⟨t.priority.val, t.createdAt, t.id⟩, mem_qInsert.mpr (Or.inl rfl), rfl⟩

/-- `getTask` after an in-place mutation that keeps the id. -/
theorem getTask_updateTaskOnly_self {s : Sys} {i : Nat} {t : Task}
    (f : Task → Task) (hfind : getTask s.tm i = some t)
    (hf : ∀ u, (f u).id = u.id) :
    getTask (updateTaskOnly s i f).tm i = some (f t) := by
  have hfind' : s.tm.tasks.find? (fun u => decide (u.id = i)) = some t := hfind
  have ht : t.id = i := by simpa using List.find?_some hfind'
  have hp : ((fun u : Task => decide (u.id = i)) ∘
      (fun u => if u.id = i then f u else u)) =
      (fun u : Task => decide (u.id = i)) := by
    funext u
    by_cases h : u.id = i
    · simp [h, hf]
    · simp [h]
  unfold getTask updateTaskOnly
  dsimp only
  rw [List.find?_map, hp, hfind']
  simp [ht]

/-- `removeFromQueue` never touches the task table. -/
theorem tasks_removeFromQueue (tm : TaskManager) (i : Nat) :
    (removeFromQueue tm i).tasks = tm.tasks := by
  unfold removeFromQueue; split <;> rfl

/-- The id found by `getTask` is the id asked for. -/
theorem id_of_getTask {tm : TaskManager} {i : Nat} {t : Task}
    (hfind : getTask tm i = some t) : t.id = i := by
  have hfind' : tm.tasks.find? (fun u => decide (u.id = i)) = some t := hfind
  simpa using List.find?_some hfind'

/-- C3: the retry bound.  (1) A freshly created task carries
`retry_count = 0` and `max_retries = 3`.  (2) A FAILED update on a task with
retries left resets it to PENDING, clears the error, bumps `retry_count` by
one and re-enqueues it.  (3) A FAILED update on a task with exhausted retries
leaves it FAILED with the error recorded, `retry_count` unchanged and the
queue untouched.  (4) Concretely, a dependency-free task that fails on every
attempt is PENDING with `retry_count` 1, 2, 3 after the first three failures
and terminally FAILED with `retry_count = 3` — four total attempts — after
the fourth, no longer enqueued. -/
theorem c3_retry_bound :
    (∀ (s : Sys) (ty : String) (inp : Obj) (p : TaskPriority)
        (deps : List Nat) (md : Obj),
      (∀ u ∈ s.tm.tasks, u.id ≠ s.nextId) →
      getTask (createTask s ty inp p deps md).2.tm s.nextId =
        some (newTask s ty inp p deps md) ∧
      (newTask s ty inp p deps md).retryCount = 0 ∧
      (newTask s ty inp p deps md).maxRetries = 3) ∧
    (∀ (s : Sys) (i : Nat) (t : Task) (msg : String),
      getTask s.tm i = some t →
      t.retryCount < t.maxRetries →
      (i ∈ s.tm.queueSet → i ∈ queueIds s) →
      statusOf (updateTaskStatus s i .failed none (some msg)).2 i =
          some .pending ∧
        retryOf (updateTaskStatus s i .failed none (some msg)).2 i =
          some (t.retryCount + 1) ∧
        errorOf (updateTaskStatus s i .failed none (some msg)).2 i =
          some none ∧
        i ∈ queueIds (updateTaskStatus s i .failed none (some msg)).2) ∧
    (∀ (s : Sys) (i : Nat) (t : Task) (msg : String),
      getTask s.tm i = some t →
      ¬ t.retryCount < t.maxRetries →
      statusOf (updateTaskStatus s i .failed none (some msg)).2 i =
          some .failed ∧
        retryOf (updateTaskStatus s i .failed none (some msg)).2 i =
          some t.retryCount ∧
        errorOf (updateTaskStatus s i .failed none (some msg)).2 i =
          some (some msg) ∧
        queueIds (updateTaskStatus s i .failed none (some msg)).2 =
          queueIds s) ∧
    ((statusOf (c3S "plan" [] .medium [] "项目经理" "err" 1) 0 = some .pending ∧
        retryOf (c3S "plan" [] .medium [] "项目经理" "err" 1) 0 = some 1 ∧
        errorOf (c3S "plan" [] .medium [] "项目经理" "err" 1) 0 = some none ∧
        0 ∈ queueIds (c3S "plan" [] .medium [] "项目经理" "err" 1)) ∧
      (statusOf (c3S "plan" [] .medium [] "项目经理" "err" 2) 0 = some .pending ∧
        retryOf (c3S "plan" [] .medium [] "项目经理" "err" 2) 0 = some 2) ∧
      (statusOf (c3S "plan" [] .medium [] "项目经理" "err" 3) 0 = some .pending ∧
        retryOf (c3S "plan" [] .medium [] "项目经理" "err" 3) 0 = some 3 ∧
        0 ∈ queueIds (c3S "plan" [] .medium [] "项目经理" "err" 3)) ∧
      (statusOf (c3S "plan" [] .medium [] "项目经理" "err" 4) 0 = some .failed ∧
        retryOf (c3S "plan" [] .medium [] "项目经理" "err" 4) 0 = some 3 ∧
        errorOf (c3S "plan" [] .medium [] "项目经理" "err" 4) 0 =
          some (some "err") ∧
        queueIds (c3S "plan" [] .medium [] "项目经理" "err" 4) = [])) := by
  refine ⟨?_, ?_, ?_, by decide⟩
  · intro s ty inp p deps md hfresh
    refine ⟨?_, rfl, rfl⟩
    unfold getTask
    rw [tasks_createTask]
    exact find?_append_singleton
      (fun u hu => by simp [hfresh u hu]) (by simp [newTask])
  · intro s i t msg hfind hr hcoh
    have ht : t.id = i := id_of_getTask hfind
    rw [updateTaskStatus_failed_retry hfind hr]
    have h2 : getTask (failedRetrySys s i msg t).tm i =
        some { t with status := .pending, completedAt := some s.clock,
                      error := none, retryCount := t.retryCount + 1,
                      lastActivity := s.clock + 1 } := by
      show getTask (addToQueue _ t) i = _
      unfold getTask
      rw [tasks_addToQueue]
      exact getTask_updateTaskOnly_self _
        (getTask_updateTaskOnly_self
          (fun u => { u with status := .failed, completedAt := some s.clock,
                             error := some msg, lastActivity := s.clock + 1 })
          hfind (fun u => rfl))
        (fun u => rfl)
    refine ⟨?_, ?_, ?_, ?_⟩
    · simp [statusOf, h2]
    · simp [retryOf, h2]
    · simp [errorOf, h2]
    · have hcoht : t.id ∈ s.tm.queueSet → t.id ∈ s.tm.taskQueue.map QEntry.tid := by
        rw [ht]; exact hcoh
      rw [← ht]
      exact mem_qIds_addToQueue_self hcoht
  · intro s i t msg hfind hr
    rw [updateTaskStatus_failed_exhausted hfind hr]
    have h2 : getTask (failRaw s i msg).tm i =
        some { t with status := .failed, completedAt := some s.clock,
                      error := some msg, lastActivity := s.clock + 1 } :=
      getTask_updateTaskOnly_self
        (fun u => { u with status := .failed, completedAt := some s.clock,
                           error := some msg, lastActivity := s.clock + 1 })
        hfind (fun u => rfl)
    exact ⟨by simp [statusOf, h2], by simp [retryOf, h2],
      by simp [errorOf, h2], rfl⟩

/-- A one-task literal: the task produced by creating a dependency-free task
in the initial state. -/
def c3WitT : Task :=
  { id := 0, taskType := "a", inputData := [], priority := .medium,
    dependencies := [], metadata := [], createdAt := 0, lastActivity := 1 }

/-- A one-task state whose task has exhausted its retries. -/
def c3WitS2 : Sys :=
  { tm := { tasks := [{ c3WitT with retryCount := 3, status := .inProgress }] },
    clock := 9, nextId := 1 }

theorem c3_retry_bound_witness :
    (statusOf (updateTaskStatus (createTask initSys "a" [] .medium [] []).2 0
        .failed none (some "e1")).2 0 = some .pending ∧
      retryOf (updateTaskStatus (createTask initSys "a" [] .medium [] []).2 0
        .failed none (some "e1")).2 0 = some (0 + 1) ∧
      errorOf (updateTaskStatus (createTask initSys "a" [] .medium [] []).2 0
        .failed none (some "e1")).2 0 = some none ∧
      0 ∈ queueIds (updateTaskStatus (createTask initSys "a" [] .medium [] []).2 0
        .failed none (some "e1")).2) ∧
    (statusOf (updateTaskStatus c3WitS2 0 .failed none (some "e2")).2 0 =
        some .failed ∧
      retryOf (updateTaskStatus c3WitS2 0 .failed none (some "e2")).2 0 =
        some 3 ∧
      errorOf (updateTaskStatus c3WitS2 0 .failed none (some "e2")).2 0 =
        some (some "e2") ∧
      queueIds (updateTaskStatus c3WitS2 0 .failed none (some "e2")).2 =
        queueIds c3WitS2) :=
  ⟨c3_retry_bound.2.1 (createTask initSys "a" [] .medium [] []).2 0 c3WitT "e1"
      (by decide) (by decide) (by decide),
   c3_retry_bound.2.2.1 c3WitS2 0
      { c3WitT with retryCount := 3, status := .inProgress } "e2"
      (by decide) (by decide)⟩

/-! ### C10: assign_task ignores the current status -/

/-- C10: `assign_task` never inspects the current status.  For any task in
the table whose dependency list is empty or fully COMPLETED — whatever its
status, including the terminal COMPLETED / FAILED / CANCELLED — the call
returns true and rewrites the task to ASSIGNED with a fresh `assigned_at`. -/
theorem c10_assign_ignores_status (s : Sys) (i : Nat) (role : String)
    (t : Task) (hfind : getTask s.tm i = some t)
    (hdeps : t.dependencies = [] ∨ t.dependencies.all (depDone s.tm) = true) :
    (assignTask s i role).1 = true ∧
    getTask (assignTask s i role).2.tm i =
      some { t with assignedTo := some role, status := .assigned,
                    assignedAt := some s.clock } := by
  have hguard : ¬ (t.dependencies ≠ [] ∧
      ¬ (t.dependencies.all (depDone s.tm) = true)) := by
    rcases hdeps with h | h
    · exact fun hc => hc.1 h
    · exact fun hc => hc.2 h
  unfold assignTask
  rw [hfind]
  dsimp only
  rw [if_neg hguard]
  refine ⟨rfl, ?_⟩
  show getTask (removeFromQueue _ i) i = _
  unfold getTask
  rw [tasks_removeFromQueue]
  exact getTask_updateTaskOnly_self _ hfind (fun u => rfl)

/-- A COMPLETED task with no dependencies, sitting alone in a manager. -/
def c10WitTask : Task :=
  { id := 0, taskType := "create_plan", inputData := [], priority := .high,
    dependencies := [], metadata := [], status := .completed, createdAt := 7,
    completedAt := some 9, result := some [("ok", "yes")], lastActivity := 8 }

/-- A state holding only the COMPLETED `c10WitTask`. -/
def c10Wit : Sys := { tm := { tasks := [c10WitTask] }, clock := 50, nextId := 1 }

theorem c10_assign_ignores_status_witness :
    (assignTask c10Wit 0 "项目经理").1 = true ∧
    getTask (assignTask c10Wit 0 "项目经理").2.tm 0 =
      some { c10WitTask with assignedTo := some "项目经理",
                             status := .assigned, assignedAt := some 50 } :=
  c10_assign_ignores_status c10Wit 0 "项目经理" c10WitTask rfl (Or.inl rfl)


/-! ### C4: single materialization of workflow steps -/

/-- Workflow status observer. -/
def wfStatusOf (e : Engine) (wid : Nat) : Option WorkflowStatus :=
  (findWf e wid).map (fun w => w.status)

/-- The `task_id` fields of a workflow, in step order. -/
def wfTaskIds (e : Engine) (wid : Nat) : Option (List (Option Nat)) :=
  (findWf e wid).map (fun w => w.steps.map (fun st => st.taskId))

/-- A one-step workflow (id 0, step «step_1», dependency-free), started:
`start_workflow` materializes the step into task 1 and assigns it. -/
def c4Eng : Engine :=
  let r := createWorkflow initEngine "开发流程" ""
  let r2 := engineAddStep r.2 0 "create_plan" "项目经理" [] [] none []
  (startWorkflow r2.2 0).2

/-- One `update_workflow` call on `c4Eng` while task 1 is still ASSIGNED. -/
def c4Eng2 : Engine := updateWorkflow c4Eng 0

/-- C4 fails on the code: after `start_workflow` the single step is bound to
task 1 (one task in the manager).  The very next `update_workflow`, with the
task still ASSIGNED, re-materializes the step — `get_ready_steps` only skips
COMPLETED and IN_PROGRESS — creating task 2 for the same step and overwriting
the step's `task_id`.  Both tasks carry `step_id = "step_1"` metadata. -/
theorem c4_single_materialization :
    c4Eng.sys.tm.tasks.length = 1 ∧
    wfTaskIds c4Eng 0 = some [some 1] ∧
    statusOf c4Eng.sys 1 = some .assigned ∧
    c4Eng2.sys.tm.tasks.length = 2 ∧
    wfTaskIds c4Eng2 0 = some [some 2] ∧
    c4Eng2.sys.tm.tasks.map (fun t => objGet t.metadata "step_id") =
      [some "step_1", some "step_1"] := by
  refine ⟨rfl, ?_, rfl, rfl, ?_, rfl⟩ <;> decide

/-! ### C8: persistence round-trip -/

/-- A COMPLETED task whose result is the empty dict `{}` (as produced by
`update_task_status(id, COMPLETED)` with no result argument). -/
def c8Task : Task :=
  { id := 0, taskType := "create_plan", inputData := [], priority := .medium,
    dependencies := [], metadata := [], status := .completed, createdAt := 0,
    completedAt := some 4, result := some [], lastActivity := 1 }

/-- A task whose result is a non-empty dict. -/
def c8Task2 : Task :=
  { c8Task with result := some [("plan", "p")] }

/-- C8 fails on the code.  (1) `save_workflow` always returns False: building
its INSERT parameters reads `workflow.template_name` and each
`step.dependencies`, attributes that `Workflow` / `WorkflowStep` never
define, so the body raises `AttributeError` and the `except` branch reports
failure — no workflow is ever persisted, let alone round-tripped.
(2) `save_task` stores NULL for a falsy result, so a COMPLETED task whose
result is the empty dict `{}` reloads with `result = None`, not `{}`.
(3) For a task whose result is not the falsy empty dict, the result column
does round-trip. -/
theorem c8_roundtrip :
    (∀ w : Workflow, saveWorkflow w = false) ∧
    (c8Task.result = some [] ∧ loadedResult c8Task = none ∧
      loadedResult c8Task ≠ c8Task.result) ∧
    (∀ t : Task, t.result ≠ some [] → loadedResult t = t.result) := by
  refine ⟨fun w => rfl, by decide, ?_⟩
  intro t h
  unfold loadedResult savedResultColumn
  cases hr : t.result with
  | none => rfl
  | some d =>
    cases d with
    | nil => exact absurd hr h
    | cons a l => rfl

theorem c8_roundtrip_witness :
    loadedResult c8Task2 = c8Task2.result :=
  c8_roundtrip.2.2 c8Task2 (by decide)

/-! ### C9: worker exception containment -/

/-- C9: when the worker raises, `execute_task` catches the exception,
converts it into a FAILED status update carrying the exception message (after
the IN_PROGRESS transition it performed before the call), and returns the
structured `{success: false, error}` dict.  The total return type of the
embedding is the containment: no exception escapes. -/
theorem c9_exception_containment (worker : Worker) (s : Sys) (i : Nat)
    (t : Task) (r : String) (msg : String)
    (hfind : getTask s.tm i = some t)
    (hassigned : t.assignedTo = some r)
    (hrole : knownRoles.contains r = true)
    (hto : t.timeoutSeconds = none)
    (hw : worker t.taskType t.inputData = .error msg) :
    executeTask worker s i none =
      ([("success", "false"), ("error", msg)],
        (updateTaskStatus (updateTaskStatus s i .inProgress none none).2 i
          .failed none (some msg)).2) := by
  unfold executeTask
  rw [hfind]
  dsimp only
  rw [if_neg (by simp [hassigned])]
  unfold checkTimeoutM
  rw [if_pos (Or.inl hto)]
  dsimp only
  rw [if_neg Bool.false_ne_true]
  have hcontains : ¬ ¬ (knownRoles.contains (t.assignedTo.getD "") = true) := by
    rw [hassigned]
    simpa using hrole
  rw [if_neg hcontains, hw]

/-- A fresh ASSIGNED task for the C9 witness. -/
def c9Task : Task :=
  { id := 0, taskType := "create_plan", inputData := [("req", "x")],
    priority := .high, dependencies := [], metadata := [],
    status := .assigned, createdAt := 0, assignedTo := some "项目经理",
    assignedAt := some 2, lastActivity := 1 }

/-- A state holding only `c9Task`. -/
def c9Sys : Sys := { tm := { tasks := [c9Task] }, clock := 10, nextId := 1 }

/-- A worker that always raises. -/
def c9Worker : Worker := fun _ _ => .error "LLM连接失败"

theorem c9_exception_containment_witness :
    executeTask c9Worker c9Sys 0 none =
      ([("success", "false"), ("error", "LLM连接失败")],
        (updateTaskStatus (updateTaskStatus c9Sys 0 .inProgress none none).2 0
          .failed none (some "LLM连接失败")).2) :=
  c9_exception_containment c9Worker c9Sys 0 c9Task "项目经理" "LLM连接失败"
    rfl rfl (by decide) rfl rfl


/-! ### C5: timeout handling -/

/-- An IN_PROGRESS task with a 5-second timeout, last active at time 3. -/
def c5Task : Task :=
  { id := 0, taskType := "create_plan", inputData := [], priority := .medium,
    dependencies := [], metadata := [], status := .inProgress, createdAt := 0,
    assignedTo := some "项目经理", assignedAt := some 1, startedAt := some 2,
    lastActivity := 3, timeoutSeconds := some 5 }

/-- A state where `c5Task` has long exceeded its timeout and the sweep
interval has elapsed. -/
def c5Sys : Sys :=
  { tm := { tasks := [c5Task] }, clock := 100, nextId := 1,
    lastTimeoutCheck := 0 }

/-- C5 is false as stated: the timeout sweep reports task 0 timed out, but
the task ends FAILED with `retry_count` still 0, its error set to the timeout
message, and the queue empty — it is not reset to PENDING, `retry_count` is
not incremented, and it is not re-enqueued.  The retry logic of
`update_task_status` never runs. -/
theorem c5_counterexample :
    (checkTimeouts c5Sys).1 = [0] ∧
    statusOf (checkTimeouts c5Sys).2 0 = some .failed ∧
    retryOf (checkTimeouts c5Sys).2 0 = some 0 ∧
    errorOf (checkTimeouts c5Sys).2 0 = some (some "任务执行超时（5秒）") ∧
    queueIds (checkTimeouts c5Sys).2 = [] := by
  refine ⟨rfl, rfl, rfl, rfl, rfl⟩

/-- A single-task enhanced-manager state, parameterized by the task, the
queue, the queue set, the clock, the id counter and the last sweep time. -/
def c5State (t : Task) (q : List QEntry) (qs : List Nat) (c n ltc : Nat) : Sys :=
  { tm := { tasks := [t], taskQueue := q, queueSet := qs },
    clock := c, nextId := n, lastTimeoutCheck := ltc }

/-- The task as `Task.fail` leaves it in the timeout sweep starting at
clock `c`: FAILED, timeout message, fresh `completed_at`/`last_activity`,
everything else — `retry_count` included — untouched. -/
def timedOutTask (t : Task) (c v : Nat) : Task :=
  { t with status := .failed, completedAt := some (c + 2),
           error := some ("任务执行超时（" ++ toString v ++ "秒）"),
           lastActivity := c + 3 }

theorem c5a (t : Task) (q : List QEntry) (qs : List Nat) (c n ltc v : Nat)
    (hst : t.status = .inProgress)
    (hto : t.timeoutSeconds = some v)
    (hintv : ¬ (c - ltc < 60))
    (helapsed : c + 1 - t.lastActivity > v) :
    checkTimeouts (c5State t q qs c n ltc) =
      ([t.id], c5State (timedOutTask t c v) q qs (c + 4) n c) := by
  unfold checkTimeouts c5State
  dsimp only [Sys.tick]
  rw [if_neg hintv]
  dsimp only [List.foldl]
  unfold checkTimeoutM
  have hc : ¬ (t.timeoutSeconds = none ∨ t.status ≠ TaskStatus.inProgress) := by
    simp [hst, hto]
  rw [if_neg hc]
  dsimp only [Sys.tick]
  have hd : decide (c + 1 - t.lastActivity > t.timeoutSeconds.getD 0) = true := by
    rw [hto]
    simpa using helapsed
  rw [if_pos hd]
  unfold failRaw updateTaskOnly timedOutTask
  dsimp only [Sys.tick]
  simp [hto]

theorem c5b (worker : Worker) (s : Sys) (i : Nat) (t : Task) (r : String)
    (tmo : Option Nat) (v : Nat)
    (hfind : getTask s.tm i = some t)
    (hassigned : t.assignedTo = some r)
    (hst : t.status = .inProgress)
    (hto : t.timeoutSeconds = some v)
    (helapsed : s.clock - t.lastActivity > v) :
    executeTask worker s i tmo =
      ([("success", "false"),
        ("error", "任务已超时（" ++ toString v ++ "秒）")],
       { s with clock := s.clock + 1 }) := by
  unfold executeTask
  rw [hfind]
  dsimp only
  rw [if_neg (by simp [hassigned])]
  unfold checkTimeoutM
  have hc : ¬ (t.timeoutSeconds = none ∨ t.status ≠ TaskStatus.inProgress) := by
    simp [hst, hto]
  rw [if_neg hc]
  dsimp only [Sys.tick]
  have hd : decide (s.clock - t.lastActivity > t.timeoutSeconds.getD 0) = true := by
    rw [hto]
    simpa using helapsed
  rw [if_pos hd, hto]
  rfl

/-- C5 (amended): a timed-out IN_PROGRESS task is *not* routed through the
retry logic.  (a) `EnhancedTaskManager.check_timeouts` fails it directly via
`Task.fail` with the timeout message: the task ends FAILED, `retry_count`
unchanged, the queue and queue-set untouched — no PENDING reset, no
re-enqueue.  (b) `TaskScheduler.execute_task` on an already-timed-out task
merely returns a structured timeout error without changing the task at all
(only the clock advances for the `now()` read); the worker is never invoked
and no FAILED transition happens there either. -/
theorem c5_timeout_no_retry :
    (∀ (t : Task) (q : List QEntry) (qs : List Nat) (c n ltc v : Nat),
      t.status = .inProgress →
      t.timeoutSeconds = some v →
      ¬ (c - ltc < 60) →
      c + 1 - t.lastActivity > v →
      checkTimeouts (c5State t q qs c n ltc) =
        ([t.id], c5State (timedOutTask t c v) q qs (c + 4) n c)) ∧
    (∀ (worker : Worker) (s : Sys) (i : Nat) (t : Task) (r : String)
        (tmo : Option Nat) (v : Nat),
      getTask s.tm i = some t →
      t.assignedTo = some r →
      t.status = .inProgress →
      t.timeoutSeconds = some v →
      s.clock - t.lastActivity > v →
      executeTask worker s i tmo =
        ([("success", "false"),
          ("error", "任务已超时（" ++ toString v ++ "秒）")],
         { s with clock := s.clock + 1 })) :=
  ⟨c5a, c5b⟩

theorem c5_timeout_no_retry_witness :
    checkTimeouts (c5State c5Task [] [] 100 1 0) =
      ([0], c5State (timedOutTask c5Task 100 5) [] [] 104 1 100) ∧
    executeTask c9Worker c5Sys 0 none =
      ([("success", "false"), ("error", "任务已超时（5秒）")],
       { c5Sys with clock := 101 }) :=
  ⟨c5_timeout_no_retry.1 c5Task [] [] 100 1 0 5 rfl rfl (by decide) (by decide),
   c5_timeout_no_retry.2 c9Worker c5Sys 0 c5Task "项目经理" none 5 rfl rfl rfl
      rfl (by decide)⟩


/-! ### C6: pause blocks materialization -/

/-- `setStep` never changes the workflow status. -/
theorem setStep_status (w : Workflow) (sid : String)
    (f : WorkflowStep → WorkflowStep) : (setStep w sid f).status = w.status :=
  rfl

/-- `update_step_result` never changes the workflow status. -/
theorem updateStepResult_status (w : Workflow) (sid : String)
    (r : Option Obj) : (updateStepResult w sid r).status = w.status := by
  unfold updateStepResult
  split
  · rfl
  · rfl

/-- The per-step synchronization never changes the workflow status. -/
theorem syncStep_status (sys : Sys) (w : Workflow) (sid : String) :
    (syncStep sys w sid).status = w.status := by
  unfold syncStep
  split
  · rfl
  · split
    · rfl
    · split
      · rfl
      · split
        · rw [updateStepResult_status]
          rfl
        · split
          · rfl
          · rfl

theorem c6a (e : Engine) (wid : Nat) (w : Workflow)
    (hfind : findWf e wid = some w) (hp : w.status = .paused) :
    (updateWorkflow e wid).sys = e.sys := by
  unfold updateWorkflow
  rw [hfind]
  dsimp only
  have hs : (List.foldl (fun acc sid => syncStep e.sys acc sid)
      w (w.steps.map (fun st => st.stepId))).status = w.status := by
    refine foldl_inv (fun acc => acc.status = w.status) _ _ w rfl ?_
    intro b a _ hb
    rw [syncStep_status]
    exact hb
  rw [if_neg (by simp [hs, hp])]
  rfl

theorem c6b (p : PEngine) (wid : Nat) (w : Workflow)
    (hfind : findWf p.eng wid = some w) (hnp : w.status ≠ .paused) :
    resumeWorkflow p wid = (false, p) := by
  unfold resumeWorkflow
  rw [hfind]
  dsimp only
  rw [if_pos hnp]

theorem c6c (p : PEngine) (wid : Nat) (w : Workflow)
    (hfind : findWf p.eng wid = some w) (hp : w.status = .paused) :
    resumeWorkflow p wid =
      (true,
        { eng := updateWorkflow (setWf p.eng wid { w with status := .running })
            wid,
          paused := p.paused.filter (fun x => x.1 ≠ wid) }) := by
  unfold resumeWorkflow
  rw [hfind]
  dsimp only
  rw [if_neg (by simp [hp])]

/-- C6 (amended): while a workflow is PAUSED, `update_workflow` only runs the
synchronization pass — the shared task manager (table, queue, clock, id
source) is completely untouched, so no task is ever created.
`resume_workflow` fails on a non-PAUSED workflow; on a PAUSED one it flips
the status to RUNNING, drops the pause record, and immediately runs
`update_workflow` — which materializes *every* step `get_ready_steps` then
returns, including steps that had already been materialized and are merely
ASSIGNED, not only the steps that became ready during the pause (see the
counterexample). -/
theorem c6_pause_gating :
    (∀ (e : Engine) (wid : Nat) (w : Workflow),
      findWf e wid = some w → w.status = .paused →
      (updateWorkflow e wid).sys = e.sys) ∧
    (∀ (p : PEngine) (wid : Nat) (w : Workflow),
      findWf p.eng wid = some w → w.status ≠ .paused →
      resumeWorkflow p wid = (false, p)) ∧
    (∀ (p : PEngine) (wid : Nat) (w : Workflow),
      findWf p.eng wid = some w → w.status = .paused →
      resumeWorkflow p wid =
        (true,
          { eng := updateWorkflow
              (setWf p.eng wid { w with status := .running }) wid,
            paused := p.paused.filter (fun x => x.1 ≠ wid) })) :=
  ⟨c6a, c6b, c6c⟩

/-- The pause manager wrapped around the started one-step workflow. -/
def c6P : PEngine := { eng := c4Eng }

/-- The state after pausing workflow 0. -/
def c6P1 : PEngine := (pauseWorkflow c6P 0 "维护").2

/-- C6 is false as stated: the one-step workflow was materialized (task 1)
before the pause; nothing changed while paused (its task is still ASSIGNED),
so no step became ready during the pause.  Yet `resume_workflow` succeeds and
its immediate update materializes the step *again*: a second task appears and
the step's `task_id` moves to task 2. -/
theorem c6_counterexample :
    (pauseWorkflow c6P 0 "维护").1 = true ∧
    c6P1.eng.sys.tm.tasks.length = 1 ∧
    wfTaskIds c6P1.eng 0 = some [some 1] ∧
    statusOf c6P1.eng.sys 1 = some .assigned ∧
    (resumeWorkflow c6P1 0).1 = true ∧
    (resumeWorkflow c6P1 0).2.eng.sys.tm.tasks.length = 2 ∧
    wfTaskIds (resumeWorkflow c6P1 0).2.eng 0 = some [some 2] := by
  refine ⟨rfl, rfl, ?_, rfl, rfl, rfl, ?_⟩ <;> decide

/-- The literal paused workflow sitting inside `c6P1`. -/
def c6WitWf : Workflow :=
  { id := 0, name := "开发流程", description := "",
    steps := [{ stepId := "step_1", stepType := "create_plan",
                roleName := "项目经理", inputData := [], condition := none,
                metadata := [], status := .assigned, taskId := some 1,
                result := none, error := none }],
    metadata := [], status := .paused, createdAt := 0, startedAt := some 1,
    completedAt := none, context := [], dependencies := [] }

theorem c6_pause_gating_witness :
    (updateWorkflow c6P1.eng 0).sys = c6P1.eng.sys ∧
    resumeWorkflow c6P 0 = (false, c6P) ∧
    resumeWorkflow c6P1 0 =
      (true,
        { eng := updateWorkflow
            (setWf c6P1.eng 0 { c6WitWf with status := .running }) 0,
          paused := c6P1.paused.filter (fun x => x.1 ≠ 0) }) :=
  ⟨c6_pause_gating.1 c6P1.eng 0 c6WitWf rfl rfl,
   c6_pause_gating.2.1 c6P 0 { c6WitWf with status := .running } rfl
      (by decide),
   c6_pause_gating.2.2 c6P1 0 c6WitWf rfl rfl⟩

/-! ### C7: workflow completion -/

/-- Drive the engine with a task-manager state change performed through the
shared manager (the way `TaskScheduler` completes tasks out-of-band). -/
def engWithSys (e : Engine) (s : Sys) : Engine := { e with sys := s }

/-- A two-step workflow: «step_1», and «step_2» depending on it; started. -/
def c7E0 : Engine :=
  let r := createWorkflow initEngine "两步流程" ""
  let r2 := engineAddStep r.2 0 "create_plan" "项目经理" [] [] none []
  let r3 := engineAddStep r2.2 0 "design_architecture" "系统架构师" []
    ["step_1"] none []
  (startWorkflow r3.2 0).2

/-- After task 1 (step_1) completes and the workflow is updated. -/
def c7E1 : Engine :=
  updateWorkflow
    (engWithSys c7E0
      (updateTaskStatus c7E0.sys 1 .completed (some [("plan", "p1")]) none).2)
    0

/-- After task 2 (step_2) completes and the workflow is updated. -/
def c7E2 : Engine :=
  updateWorkflow
    (engWithSys c7E1
      (updateTaskStatus c7E1.sys 2 .completed (some [("arch", "a1")]) none).2)
    0

/-- The workflow-completion flag, as an observer. -/
def isCompletedOf (e : Engine) (wid : Nat) : Option Bool :=
  (findWf e wid).map isCompleted

/-- Context lookup observer. -/
def wfContextOf (e : Engine) (wid : Nat) (sid : String) :
    Option (Option (Option Obj)) :=
  (findWf e wid).map (fun w => objGet w.context sid)

/-- C7: `is_completed()` holds exactly when every step is COMPLETED
(vacuously true for a workflow with no steps), and on the concrete S1→S2
workflow the status becomes COMPLETED via `update_workflow` exactly когда
both underlying tasks have completed, with `context` then holding both
results. -/
theorem c7_workflow_completion :
    (∀ w : Workflow,
      isCompleted w = true ↔ ∀ st ∈ w.steps, st.status = .completed) ∧
    (isCompleted { id := 9, name := "空流程", createdAt := 0 } = true) ∧
    ((wfStatusOf c7E0 0 = some .running ∧
        statusOf c7E0.sys 1 = some .assigned ∧
        wfTaskIds c7E0 0 = some [some 1, none] ∧
        isCompletedOf c7E0 0 = some false) ∧
      (wfStatusOf c7E1 0 = some .running ∧
        statusOf c7E1.sys 1 = some .completed ∧
        statusOf c7E1.sys 2 = some .assigned ∧
        wfTaskIds c7E1 0 = some [some 1, some 2] ∧
        isCompletedOf c7E1 0 = some false ∧
        wfContextOf c7E1 0 "step_1" = some (some (some [("plan", "p1")]))) ∧
      (statusOf c7E2.sys 1 = some .completed ∧
        statusOf c7E2.sys 2 = some .completed ∧
        isCompletedOf c7E2 0 = some true ∧
        wfStatusOf c7E2 0 = some .completed ∧
        wfContextOf c7E2 0 "step_1" = some (some (some [("plan", "p1")])) ∧
        wfContextOf c7E2 0 "step_2" = some (some (some [("arch", "a1")])))) := by
  refine ⟨?_, rfl, ?_, ?_, ?_⟩
  · intro w
    simp [isCompleted, List.all_eq_true]
  · decide
  · decide
  · decide

theorem c7_workflow_completion_witness :
    isCompleted c6WitWf = true ↔ ∀ st ∈ c6WitWf.steps, st.status = .completed :=
  c7_workflow_completion.1 c6WitWf


/-! ### C2: priority / FIFO ordering of get_next_task -/

/-- The scheduling order the spec claims: strictly higher priority first;
within equal priority, (non-strictly) earlier creation first. -/
def ord (t u : Task) : Prop :=
  u.priority.val < t.priority.val ∨
    (t.priority.val = u.priority.val ∧ t.createdAt ≤ u.createdAt)

instance : DecidableRel ord := fun t u => by
  unfold ord
  infer_instance

/-- Characterization of the heap key order. -/
theorem qle_iff {a b : QEntry} :
    QEntry.le a b = true ↔
      (b.pri < a.pri ∨
        (a.pri = b.pri ∧
          (a.created < b.created ∨
            (a.created = b.created ∧ a.tid ≤ b.tid)))) := by
  unfold QEntry.le
  split_ifs <;> simp_all

theorem qle_total (a b : QEntry) :
    QEntry.le a b = true ∨ QEntry.le b a = true := by
  rw [qle_iff, qle_iff]
  omega

theorem qle_trans {a b c : QEntry} (h1 : QEntry.le a b = true)
    (h2 : QEntry.le b c = true) : QEntry.le a c = true := by
  rw [qle_iff] at h1 h2 ⊢
  omega

/-- Ordered insertion preserves sortedness of the heap. -/
theorem pairwise_qInsert {e : QEntry} {l : List QEntry}
    (hl : l.Pairwise (fun x y => QEntry.le x y = true)) :
    (qInsert e l).Pairwise (fun x y => QEntry.le x y = true) := by
  induction l with
  | nil => simp [qInsert]
  | cons f rest ih =>
    rcases List.pairwise_cons.mp hl with ⟨hf, hrest⟩
    by_cases h : QEntry.le e f = true
    · have he : qInsert e (f :: rest) = e :: f :: rest := by
        simp [qInsert, h]
      rw [he]
      refine List.pairwise_cons.mpr ⟨?_, hl⟩
      intro x hx
      rcases List.mem_cons.mp hx with rfl | hx2
      · exact h
      · exact qle_trans h (hf x hx2)
    · have he : qInsert e (f :: rest) = f :: qInsert e rest := by
        simp [qInsert, h]
      rw [he]
      refine List.pairwise_cons.mpr ⟨?_, ih hrest⟩
      intro x hx
      rcases mem_qInsert.mp hx with rfl | hx2
      · rcases qle_total f x with hfx | hxf
        · exact hfx
        · exact absurd hxf h
      · exact hf x hx2

/-- With unique ids, two table entries with the same id are the same task. -/
theorem eq_of_same_id {l : List Task} (hn : (l.map Task.id).Nodup)
    {u v : Task} (hu : u ∈ l) (hv : v ∈ l) (h : u.id = v.id) : u = v := by
  induction l with
  | nil => cases hu
  | cons a rest ih =>
    rcases List.pairwise_cons.mp hn with ⟨ha, hrest⟩
    rcases List.mem_cons.mp hu with rfl | hu2
    · rcases List.mem_cons.mp hv with rfl | hv2
      · rfl
      · exact absurd h (ha v.id (List.mem_map_of_mem Task.id hv2))
    · rcases List.mem_cons.mp hv with rfl | hv2
      · exact absurd h.symm (ha u.id (List.mem_map_of_mem Task.id hu2))
      · exact ih hrest hu2 hv2

/-- Pairwise transfer through `filterMap`, with list membership available. -/
theorem pairwise_filterMap_strong {α β : Type _} {R : α → α → Prop}
    {S : β → β → Prop} (f : α → Option β) {l : List α}
    (H : ∀ a ∈ l, ∀ b ∈ l, R a b →
      ∀ x, f a = some x → ∀ y, f b = some y → S x y)
    (hl : l.Pairwise R) : (l.filterMap f).Pairwise S := by
  induction l with
  | nil => simp
  | cons a rest ih =>
    rcases List.pairwise_cons.mp hl with ⟨ha, hrest⟩
    have ih' := ih
      (fun x hx y hy hr => H x (List.mem_cons_of_mem a hx) y
        (List.mem_cons_of_mem a hy) hr)
      hrest
    cases hfa : f a with
    | none => simpa [List.filterMap_cons, hfa] using ih'
    | some b =>
      rw [List.filterMap_cons, hfa]
      refine List.pairwise_cons.mpr ⟨?_, ih'⟩
      intro y hy
      rcases List.mem_filterMap.mp hy with ⟨c, hc, hfc⟩
      exact H a (List.mem_cons_self a rest) c (List.mem_cons_of_mem a hc)
        (ha c hc) b hfa y hfc


/-- One queue entry is backed by the task table: some task carries its id,
priority ordinal and creation time. -/
def entryMatches (tm : TaskManager) (e : QEntry) : Prop :=
  ∃ u ∈ tm.tasks, u.id = e.tid ∧ u.priority.val = e.pri ∧
    u.createdAt = e.created

/-- The queue/table invariant maintained by every `TaskManager` operation:
the heap is sorted by the pushed key, every entry is backed by the table,
ids are unique, and all ids are below the uuid counter. -/
structure QInv (s : Sys) : Prop where
  sorted : s.tm.taskQueue.Pairwise (fun x y => QEntry.le x y = true)
  entries : ∀ e ∈ s.tm.taskQueue, entryMatches s.tm e
  nodup : (s.tm.tasks.map Task.id).Nodup
  fresh : ∀ t ∈ s.tm.tasks, t.id < s.nextId

theorem qInv_init : QInv initSys :=
  ⟨List.Pairwise.nil, fun e he => absurd he (List.not_mem_nil e),
   List.nodup_nil, fun t ht => absurd ht (List.not_mem_nil t)⟩

/-- `addToQueue` preserves sortedness and entry backing (the table does not
change, and the pushed entry is keyed by a table task). -/
theorem addToQueue_pres {tm : TaskManager} {t : Task}
    (hs : tm.taskQueue.Pairwise (fun x y => QEntry.le x y = true))
    (he : ∀ e ∈ tm.taskQueue, entryMatches tm e)
    (ht : entryMatches tm ⟨t.priority.val, t.createdAt, t.id⟩) :
    (addToQueue tm t).taskQueue.Pairwise (fun x y => QEntry.le x y = true) ∧
      ∀ e ∈ (addToQueue tm t).taskQueue, entryMatches tm e := by
  unfold addToQueue
  by_cases hm : t.id ∈ tm.queueSet
  · rw [if_pos hm]
    exact ⟨hs, he⟩
  · rw [if_neg hm]
    refine ⟨pairwise_qInsert hs, ?_⟩
    intro e hee
    rcases mem_qInsert.mp hee with rfl | h2
    · exact ht
    · exact he e h2

/-- A sublist of the queue stays sorted and backed. -/
theorem sublist_pres {tm : TaskManager} {q : List QEntry}
    (hsub : q.Sublist tm.taskQueue)
    (hs : tm.taskQueue.Pairwise (fun x y => QEntry.le x y = true))
    (he : ∀ e ∈ tm.taskQueue, entryMatches tm e) :
    q.Pairwise (fun x y => QEntry.le x y = true) ∧
      ∀ e ∈ q, entryMatches tm e :=
  ⟨hs.sublist hsub, fun e hee => he e (hsub.mem hee)⟩

/-- Replacing tasks by an id/priority/creation-preserving map keeps entry
backing, id uniqueness and id freshness. -/
theorem mapTasks_pres {tm : TaskManager} {g : Task → Task} {nid : Nat}
    (hg : ∀ u, (g u).id = u.id ∧ (g u).priority.val = u.priority.val ∧
      (g u).createdAt = u.createdAt)
    (he : ∀ e ∈ tm.taskQueue, entryMatches tm e)
    (hn : (tm.tasks.map Task.id).Nodup)
    (hf : ∀ t ∈ tm.tasks, t.id < nid) :
    (∀ e ∈ tm.taskQueue,
      entryMatches { tm with tasks := tm.tasks.map g } e) ∧
      ((tm.tasks.map g).map Task.id).Nodup ∧
      ∀ t ∈ tm.tasks.map g, t.id < nid := by
  have hid : (tm.tasks.map g).map Task.id = tm.tasks.map Task.id := by
    rw [List.map_map]
    exact List.map_congr_left (fun u _ => (hg u).1)
  refine ⟨?_, ?_, ?_⟩
  · intro e hee
    rcases he e hee with ⟨u, hu, h1, h2, h3⟩
    exact ⟨g u, List.mem_map_of_mem g hu,
      (hg u).1.trans h1, (hg u).2.1.trans h2, (hg u).2.2.trans h3⟩
  · rw [hid]; exact hn
  · intro t htm
    rcases List.mem_map.mp htm with ⟨u, hu, rfl⟩
    rw [(hg u).1]
    exact hf u hu

/-- The cascade preserves sortedness and entry backing. -/
theorem checkDependentTasks_pres {tm : TaskManager} {c : Nat}
    (hs : tm.taskQueue.Pairwise (fun x y => QEntry.le x y = true))
    (he : ∀ e ∈ tm.taskQueue, entryMatches tm e) :
    (checkDependentTasks tm c).tasks = tm.tasks ∧
      (checkDependentTasks tm c).taskQueue.Pairwise
        (fun x y => QEntry.le x y = true) ∧
      ∀ e ∈ (checkDependentTasks tm c).taskQueue, entryMatches tm e := by
  unfold checkDependentTasks
  refine foldl_inv
    (fun b => b.tasks = tm.tasks ∧
      b.taskQueue.Pairwise (fun x y => QEntry.le x y = true) ∧
      ∀ e ∈ b.taskQueue, entryMatches tm e)
    _ tm.tasks tm ⟨rfl, hs, he⟩ ?_
  intro b t ht hb
  split
  · have hmem : entryMatches b ⟨t.priority.val, t.createdAt, t.id⟩ :=
      ⟨t, hb.1 ▸ ht, rfl, rfl, rfl⟩
    have h2 := addToQueue_pres hb.2.1
      (fun e hee => ?_) hmem
    · refine ⟨?_, h2.1, fun e hee => ?_⟩
      · rw [tasks_addToQueue]; exact hb.1
      · rcases h2.2 e hee with ⟨u, hu, hrest⟩
        exact ⟨u, hb.1 ▸ hu, hrest⟩
    · rcases hb.2.2 e hee with ⟨u, hu, hrest⟩
      exact ⟨u, hb.1 ▸ hu, hrest⟩
  · exact hb


/-- Transport of entry backing along a table equality. -/
theorem entryMatches_of_tasks_eq {tm1 tm2 : TaskManager}
    (h : tm2.tasks = tm1.tasks) {e : QEntry} (hm : entryMatches tm1 e) :
    entryMatches tm2 e := by
  unfold entryMatches at *
  rw [h]
  exact hm

/-- The command alphabet of the public `TaskManager` interface. -/
inductive Cmd where
  | create (ty : String) (inp : Obj) (p : TaskPriority) (deps : List Nat)
      (md : Obj)
  | assign (i : Nat) (role : String)
  | next
  | update (i : Nat) (st : TaskStatus) (r : Option Obj) (e : Option String)

/-- One public call (discarding return values). -/
def stepCmd (s : Sys) : Cmd → Sys
  | .create ty inp p deps md => (createTask s ty inp p deps md).2
  | .assign i role => (assignTask s i role).2
  | .next => (getNextTask s).2
  | .update i st r e => (updateTaskStatus s i st r e).2

/-- Any sequence of public calls starting from a fresh manager. -/
def run (cmds : List Cmd) : Sys := cmds.foldl stepCmd initSys

theorem updateTaskStatus_noop {s : Sys} {i : Nat} {t : Task}
    (hfind : getTask s.tm i = some t) {st : TaskStatus}
    (h1 : st ≠ .inProgress) (h2 : st ≠ .completed) (h3 : st ≠ .failed)
    (r : Option Obj) (e : Option String) :
    updateTaskStatus s i st r e = (true, s) := by
  unfold updateTaskStatus
  rw [hfind]
  dsimp only
  rw [if_neg h1, if_neg h2, if_neg h3]

/-- The invariant does not look at the clock. -/
theorem qInv_clock {s : Sys} (c : Nat) (h : QInv s) :
    QInv { s with clock := c } :=
  ⟨h.sorted, h.entries, h.nodup, h.fresh⟩

/-- A key-preserving in-place task mutation keeps the invariant. -/
theorem qInv_updateTaskOnly {s : Sys} {i : Nat} (f : Task → Task)
    (hf : ∀ u, (f u).id = u.id ∧ (f u).priority.val = u.priority.val ∧
      (f u).createdAt = u.createdAt)
    (h : QInv s) : QInv (updateTaskOnly s i f) := by
  have hg : ∀ u : Task, ((fun u => if u.id = i then f u else u) u).id = u.id ∧
      ((fun u => if u.id = i then f u else u) u).priority.val =
        u.priority.val ∧
      ((fun u => if u.id = i then f u else u) u).createdAt = u.createdAt := by
    intro u
    by_cases hu : u.id = i
    · simpa [hu] using hf u
    · simp [hu]
  have h2 := mapTasks_pres hg h.entries h.nodup h.fresh
  exact ⟨h.sorted, h2.1, h2.2.1, h2.2.2⟩

theorem removeFromQueue_sublist (tm : TaskManager) (i : Nat) :
    (removeFromQueue tm i).taskQueue.Sublist tm.taskQueue := by
  unfold removeFromQueue
  split
  · exact List.filter_sublist _
  · exact List.Sublist.refl _

theorem qInv_removeFromQueue {s : Sys} (h : QInv s) (i : Nat) :
    QInv { s with tm := removeFromQueue s.tm i } := by
  have hsub := removeFromQueue_sublist s.tm i
  have htasks := tasks_removeFromQueue s.tm i
  refine ⟨h.sorted.sublist hsub, ?_, ?_, ?_⟩
  · intro e hee
    exact entryMatches_of_tasks_eq htasks (h.entries e (hsub.mem hee))
  · show ((removeFromQueue s.tm i).tasks.map Task.id).Nodup
    rw [htasks]
    exact h.nodup
  · intro t ht
    rw [htasks] at ht
    exact h.fresh t ht

theorem qInv_addToQueue {s : Sys} (h : QInv s) {t : Task}
    (hmt : entryMatches s.tm ⟨t.priority.val, t.createdAt, t.id⟩) :
    QInv { s with tm := addToQueue s.tm t } := by
  have h2 := addToQueue_pres h.sorted h.entries hmt
  refine ⟨h2.1, ?_, ?_, ?_⟩
  · intro e hee
    exact entryMatches_of_tasks_eq (tasks_addToQueue _ _) (h2.2 e hee)
  · show ((addToQueue s.tm t).tasks.map Task.id).Nodup
    rw [tasks_addToQueue]
    exact h.nodup
  · intro u hu
    rw [tasks_addToQueue] at hu
    exact h.fresh u hu

theorem qInv_cascade {s : Sys} (h : QInv s) (i : Nat) :
    QInv { s with tm := checkDependentTasks s.tm i } := by
  have h2 := @checkDependentTasks_pres s.tm i h.sorted h.entries
  refine ⟨h2.2.1, ?_, ?_, ?_⟩
  · intro e hee
    exact entryMatches_of_tasks_eq h2.1 (h2.2.2 e hee)
  · show ((checkDependentTasks s.tm i).tasks.map Task.id).Nodup
    rw [h2.1]
    exact h.nodup
  · intro t ht
    rw [h2.1] at ht
    exact h.fresh t ht

theorem qInv_create {s : Sys} (h : QInv s) (ty : String) (inp : Obj)
    (p : TaskPriority) (deps : List Nat) (md : Obj) :
    QInv (createTask s ty inp p deps md).2 := by
  rcases h with ⟨hs, he, hn, hf⟩
  rw [createTask_def]
  have hnodup : ((s.tm.tasks ++ [newTask s ty inp p deps md]).map
      Task.id).Nodup := by
    rw [List.map_append, List.nodup_append]
    refine ⟨hn, List.nodup_singleton _, ?_⟩
    intro a ha hmem
    rcases List.mem_map.mp ha with ⟨u, hu, rfl⟩
    have h1 : u.id = (newTask s ty inp p deps md).id := by
      simpa using hmem
    have h2 := hf u hu
    simp only [newTask] at h1
    omega
  have hfresh : ∀ t ∈ s.tm.tasks ++ [newTask s ty inp p deps md],
      t.id < s.nextId + 1 := by
    intro t ht
    rcases List.mem_append.mp ht with h1 | h1
    · exact Nat.lt_succ_of_lt (hf t h1)
    · rw [List.mem_singleton.mp h1]
      simp [newTask]
  have hentries0 : ∀ e ∈ s.tm.taskQueue,
      entryMatches (tmWithNew s ty inp p deps md) e := by
    intro e hee
    rcases he e hee with ⟨u, hu, hrest⟩
    exact ⟨u, List.mem_append_left _ hu, hrest⟩
  by_cases hgate : createGate s ty inp p deps md = true
  · rw [if_pos hgate]
    have hmt : entryMatches (tmWithNew s ty inp p deps md)
        ⟨(newTask s ty inp p deps md).priority.val,
         (newTask s ty inp p deps md).createdAt,
         (newTask s ty inp p deps md).id⟩ :=
      ⟨newTask s ty inp p deps md,
       List.mem_append_right _ (List.mem_singleton.mpr rfl), rfl, rfl, rfl⟩
    have h2 := @addToQueue_pres (tmWithNew s ty inp p deps md)
      (newTask s ty inp p deps md) hs hentries0 hmt
    refine ⟨h2.1, ?_, ?_, ?_⟩
    · intro e hee
      exact entryMatches_of_tasks_eq (tasks_addToQueue _ _) (h2.2 e hee)
    · show ((addToQueue (tmWithNew s ty inp p deps md)
          (newTask s ty inp p deps md)).tasks.map Task.id).Nodup
      rw [tasks_addToQueue]
      exact hnodup
    · intro t ht
      rw [tasks_addToQueue] at ht
      exact hfresh t ht
  · rw [if_neg hgate]
    exact ⟨hs, hentries0, hnodup, hfresh⟩

theorem qInv_assign {s : Sys} (h : QInv s) (i : Nat) (role : String) :
    QInv (assignTask s i role).2 := by
  unfold assignTask
  cases hfind : getTask s.tm i with
  | none => exact h
  | some t =>
    dsimp only
    by_cases hguard : t.dependencies ≠ [] ∧
        ¬ (t.dependencies.all (depDone s.tm) = true)
    · rw [if_pos hguard]
      exact h
    · rw [if_neg hguard]
      dsimp only [Sys.tick]
      exact qInv_removeFromQueue
        (qInv_updateTaskOnly
          (fun u => { u with assignedTo := some role, status := TaskStatus.assigned, assignedAt := some s.clock })
          (fun u => ⟨rfl, rfl, rfl⟩)
          (qInv_clock (s.clock + 1) h)) i

theorem getNextTaskAux_sublist (tasks : List Task) :
    ∀ (q : List QEntry) (qs : List Nat),
      (getNextTaskAux tasks q qs).2.1.Sublist q := by
  intro q
  induction q with
  | nil =>
    intro qs
    exact List.Sublist.refl _
  | cons e rest ih =>
    intro qs
    show (getNextTaskAux tasks (e :: rest) qs).2.1.Sublist (e :: rest)
    rw [getNextTaskAux]
    cases hf : tasks.find? (fun u => u.id = e.tid) with
    | none =>
      simp only [hf]
      exact (ih _).cons e
    | some t =>
      simp only [hf]
      by_cases hp : t.status = .pending
      · rw [if_pos hp]
        exact (List.Sublist.refl rest).cons e
      · rw [if_neg hp]
        exact (ih _).cons e

theorem qInv_next {s : Sys} (h : QInv s) : QInv (getNextTask s).2 := by
  have hsub := getNextTaskAux_sublist s.tm.tasks s.tm.taskQueue s.tm.queueSet
  exact ⟨h.sorted.sublist hsub, fun e hee => h.entries e (hsub.mem hee),
    h.nodup, h.fresh⟩

theorem qInv_update {s : Sys} (h : QInv s) (i : Nat) (st : TaskStatus)
    (r : Option Obj) (e : Option String) :
    QInv (updateTaskStatus s i st r e).2 := by
  cases hfind : getTask s.tm i with
  | none =>
    rw [updateTaskStatus_absent hfind]
    exact h
  | some t =>
    cases st with
    | pending =>
      rw [updateTaskStatus_noop hfind (by decide) (by decide) (by decide)]
      exact h
    | assigned =>
      rw [updateTaskStatus_noop hfind (by decide) (by decide) (by decide)]
      exact h
    | cancelled =>
      rw [updateTaskStatus_noop hfind (by decide) (by decide) (by decide)]
      exact h
    | inProgress =>
      rw [updateTaskStatus_inProgress hfind]
      exact qInv_updateTaskOnly
        (fun u => { u with status := TaskStatus.inProgress, startedAt := some s.clock, lastActivity := s.clock + 1 })
        (fun u => ⟨rfl, rfl, rfl⟩) (qInv_clock (s.clock + 2) h)
    | completed =>
      rw [updateTaskStatus_completed hfind]
      exact qInv_cascade
        (qInv_updateTaskOnly
          (fun u => { u with status := TaskStatus.completed, completedAt := some s.clock, result := some (r.getD []) })
          (fun u => ⟨rfl, rfl, rfl⟩) (qInv_clock (s.clock + 1) h)) i
    | failed =>
      have hti : t.id = i := id_of_getTask hfind
      have htmem : t ∈ s.tm.tasks := List.mem_of_find?_eq_some hfind
      by_cases hr : t.retryCount < t.maxRetries
      · rw [updateTaskStatus_failed_retry hfind hr]
        have h2 : QInv (updateTaskOnly (failRaw s i (e.getD "未知错误")) i
            (fun u => { u with retryCount := u.retryCount + 1, status := TaskStatus.pending, error := none })) :=
          qInv_updateTaskOnly
            (fun u => { u with retryCount := u.retryCount + 1, status := TaskStatus.pending, error := none })
            (fun u => ⟨rfl, rfl, rfl⟩)
            (qInv_updateTaskOnly
              (fun u => { u with status := TaskStatus.failed, completedAt := some s.clock, error := some (e.getD "未知错误"), lastActivity := s.clock + 1 })
              (fun u => ⟨rfl, rfl, rfl⟩)
              (qInv_clock (s.clock + 1 + 1) (qInv_clock (s.clock + 1) h)))
        refine qInv_addToQueue h2 ?_
        refine ⟨(fun u => if u.id = i then { u with retryCount := u.retryCount + 1, status := TaskStatus.pending, error := none } else u)
          ((fun u => if u.id = i then { u with status := TaskStatus.failed, completedAt := some s.clock, error := some (e.getD "未知错误"), lastActivity := s.clock + 1 } else u) t),
          List.mem_map_of_mem _ (List.mem_map_of_mem _ htmem), ?_, ?_, ?_⟩
        · simp [hti]
        · simp [hti]
        · simp [hti]
      · rw [updateTaskStatus_failed_exhausted hfind hr]
        exact qInv_updateTaskOnly
          (fun u => { u with status := TaskStatus.failed, completedAt := some s.clock, error := some (e.getD "未知错误"), lastActivity := s.clock + 1 })
          (fun u => ⟨rfl, rfl, rfl⟩)
          (qInv_clock (s.clock + 1 + 1) (qInv_clock (s.clock + 1) h))

theorem qInv_stepCmd {s : Sys} (h : QInv s) (c : Cmd) : QInv (stepCmd s c) := by
  cases c with
  | create ty inp p deps md => exact qInv_create h ty inp p deps md
  | assign i role => exact qInv_assign h i role
  | next => exact qInv_next h
  | update i st r e => exact qInv_update h i st r e

theorem qInv_run (cmds : List Cmd) : QInv (run cmds) := by
  unfold run
  exact foldl_inv QInv stepCmd cmds initSys qInv_init
    (fun b a _ hb => qInv_stepCmd hb a)


/-- Exhaustively draining the queue with `get_next_task` (the fuel is the
queue length, which only shrinks). -/
def drainAux : Nat → Sys → List Task
  | 0, _ => []
  | fuel + 1, s =>
    match getNextTask s with
    | (none, _) => []
    | (some t, s2) => t :: drainAux fuel s2

/-- The sequence of tasks produced by repeatedly calling `get_next_task`
until the queue is exhausted. -/
def drain (s : Sys) : List Task := drainAux s.tm.taskQueue.length s

/-- What one queue entry contributes to the drain: its task, if present and
PENDING. -/
def nextFilter (tasks : List Task) (e : QEntry) : Option Task :=
  match tasks.find? (fun u => u.id = e.tid) with
  | some t => if t.status = .pending then some t else none
  | none => none

theorem drainAux_succ (n : Nat) (s : Sys) :
    drainAux (n + 1) s =
      match getNextTask s with
      | (none, _) => []
      | (some t, s2) => t :: drainAux n s2 := rfl

/-- Draining walks the queue in order, skipping entries whose task is gone
or not PENDING. -/
theorem drainAux_eq : ∀ (q : List QEntry) (fuel : Nat) (s : Sys),
    s.tm.taskQueue = q → q.length ≤ fuel →
    drainAux fuel s = q.filterMap (nextFilter s.tm.tasks) := by
  intro q
  induction q with
  | nil =>
    intro fuel s hq _
    cases fuel with
    | zero => rfl
    | succ n =>
      rw [drainAux_succ]
      have hgn : getNextTask s = (none,
          { s with tm := { s.tm with taskQueue := ([] : List QEntry), queueSet := s.tm.queueSet } }) := by
        unfold getNextTask
        rw [hq]
        rfl
      rw [hgn]
      rfl
  | cons e rest ih =>
    intro fuel s hq hf
    cases fuel with
    | zero => simp at hf
    | succ n =>
      rw [drainAux_succ]
      cases hfind : s.tm.tasks.find? (fun u => u.id = e.tid) with
      | none =>
        have hstep : getNextTaskAux s.tm.tasks (e :: rest) s.tm.queueSet =
            getNextTaskAux s.tm.tasks rest
              (s.tm.queueSet.filter (fun x => x ≠ e.tid)) := by
          rw [getNextTaskAux]
          simp only [hfind]
        have hs2 : getNextTask s = getNextTask
            { s with tm := { s.tm with taskQueue := rest, queueSet := s.tm.queueSet.filter (fun x => x ≠ e.tid) } } := by
          unfold getNextTask
          rw [hq, hstep]
        rw [hs2, ← drainAux_succ]
        have hrec := ih (n + 1)
          { s with tm := { s.tm with taskQueue := rest, queueSet := s.tm.queueSet.filter (fun x => x ≠ e.tid) } }
          rfl (Nat.le_succ_of_le (Nat.le_of_succ_le_succ (by simpa using hf)))
        have hnone : nextFilter s.tm.tasks e = none := by
          unfold nextFilter
          rw [hfind]
        rw [List.filterMap_cons, hnone]
        exact hrec
      | some t =>
        by_cases hp : t.status = .pending
        · have hstep : getNextTaskAux s.tm.tasks (e :: rest) s.tm.queueSet =
              (some t, rest, s.tm.queueSet.filter (fun x => x ≠ e.tid)) := by
            rw [getNextTaskAux]
            simp only [hfind]
            rw [if_pos hp]
          have hgn : getNextTask s = (some t,
              { s with tm := { s.tm with taskQueue := rest, queueSet := s.tm.queueSet.filter (fun x => x ≠ e.tid) } }) := by
            unfold getNextTask
            rw [hq, hstep]
          rw [hgn]
          have hrec := ih n
            { s with tm := { s.tm with taskQueue := rest, queueSet := s.tm.queueSet.filter (fun x => x ≠ e.tid) } }
            rfl (Nat.le_of_succ_le_succ (by simpa using hf))
          have hsome : nextFilter s.tm.tasks e = some t := by
            unfold nextFilter
            rw [hfind]
            simp [hp]
          rw [List.filterMap_cons, hsome]
          exact congrArg (fun l => t :: l) hrec
        · have hstep : getNextTaskAux s.tm.tasks (e :: rest) s.tm.queueSet =
              getNextTaskAux s.tm.tasks rest
                (s.tm.queueSet.filter (fun x => x ≠ e.tid)) := by
            rw [getNextTaskAux]
            simp only [hfind]
            rw [if_neg hp]
          have hs2 : getNextTask s = getNextTask
              { s with tm := { s.tm with taskQueue := rest, queueSet := s.tm.queueSet.filter (fun x => x ≠ e.tid) } } := by
            unfold getNextTask
            rw [hq, hstep]
          rw [hs2, ← drainAux_succ]
          have hrec := ih (n + 1)
            { s with tm := { s.tm with taskQueue := rest, queueSet := s.tm.queueSet.filter (fun x => x ≠ e.tid) } }
            rfl (Nat.le_succ_of_le (Nat.le_of_succ_le_succ (by simpa using hf)))
          have hnone : nextFilter s.tm.tasks e = none := by
            unfold nextFilter
            rw [hfind]
            simp [hp]
          rw [List.filterMap_cons, hnone]
          exact hrec

/-- Under the queue invariant, the drained sequence respects the claimed
scheduling order. -/
theorem drain_pairwise {s : Sys} (h : QInv s) : (drain s).Pairwise ord := by
  unfold drain
  rw [drainAux_eq s.tm.taskQueue s.tm.taskQueue.length s rfl (Nat.le_refl _)]
  refine pairwise_filterMap_strong (nextFilter s.tm.tasks) ?_ h.sorted
  intro a ha b hb hr x hx y hy
  unfold nextFilter at hx hy
  cases hfa : s.tm.tasks.find? (fun u => u.id = a.tid) with
  | none =>
    rw [hfa] at hx
    cases hx
  | some ta =>
    rw [hfa] at hx
    dsimp only at hx
    cases hfb : s.tm.tasks.find? (fun u => u.id = b.tid) with
    | none =>
      rw [hfb] at hy
      cases hy
    | some tb =>
      rw [hfb] at hy
      dsimp only at hy
      by_cases hpa : ta.status = .pending
      · by_cases hpb : tb.status = .pending
        · rw [if_pos hpa] at hx
          rw [if_pos hpb] at hy
          have hxa : ta = x := Option.some.inj hx
          have hyb : tb = y := Option.some.inj hy
          subst hxa hyb
          have hida : ta.id = a.tid := by
            simpa using List.find?_some hfa
          have hidb : tb.id = b.tid := by
            simpa using List.find?_some hfb
          rcases h.entries a ha with ⟨ua, hua, hua1, hua2, hua3⟩
          rcases h.entries b hb with ⟨ub, hub, hub1, hub2, hub3⟩
          have hta : ta = ua :=
            eq_of_same_id h.nodup (List.mem_of_find?_eq_some hfa) hua
              (by rw [hida, hua1])
          have htb : tb = ub :=
            eq_of_same_id h.nodup (List.mem_of_find?_eq_some hfb) hub
              (by rw [hidb, hub1])
          rw [qle_iff] at hr
          unfold ord
          rw [hta, htb, hua2, hua3, hub2, hub3]
          omega
        · rw [if_neg hpb] at hy
          cases hy
      · rw [if_neg hpa] at hx
        cases hx


/-- C2: after any sequence of public `TaskManager` calls starting from a
fresh manager, repeatedly calling `get_next_task` returns the queued PENDING
tasks in non-increasing priority order and, within equal priority, in
non-decreasing creation-time order (`ord`); and an entry re-enqueued by the
FAILED retry path is keyed by the task's original `priority`/`created_at`
(every queue entry after the update is either an old entry or carries
exactly those key fields). -/
theorem c2_priority_fifo :
    (∀ cmds : List Cmd, (drain (run cmds)).Pairwise ord) ∧
    (∀ (s : Sys) (i : Nat) (t : Task) (r : Option Obj) (e : Option String),
      getTask s.tm i = some t →
      ∀ e2 ∈ (updateTaskStatus s i .failed r e).2.tm.taskQueue,
        e2 ∈ s.tm.taskQueue ∨
          (e2.tid = t.id ∧ e2.pri = t.priority.val ∧
            e2.created = t.createdAt)) := by
  constructor
  · intro cmds
    exact drain_pairwise (qInv_run cmds)
  · intro s i t r e hfind e2 he2
    by_cases hr : t.retryCount < t.maxRetries
    · rw [updateTaskStatus_failed_retry hfind hr] at he2
      have he3 : e2 ∈ (addToQueue (updateTaskOnly (failRaw s i (e.getD "未知错误")) i
          (fun u => { u with retryCount := u.retryCount + 1, status := TaskStatus.pending, error := none })).tm t).taskQueue := he2
      unfold addToQueue at he3
      by_cases hm : t.id ∈ (updateTaskOnly (failRaw s i (e.getD "未知错误")) i
          (fun u => { u with retryCount := u.retryCount + 1, status := TaskStatus.pending, error := none })).tm.queueSet
      · rw [if_pos hm] at he3
        exact Or.inl he3
      · rw [if_neg hm] at he3
        rcases mem_qInsert.mp he3 with rfl | h2
        · exact Or.inr ⟨rfl, rfl, rfl⟩
        · exact Or.inl h2
    · rw [updateTaskStatus_failed_exhausted hfind hr] at he2
      exact Or.inl he2

/-- Five dependency-free creations with mixed priorities. -/
def c2Cmds : List Cmd :=
  [.create "a" [] .low [] [], .create "b" [] .urgent [] [],
   .create "c" [] .medium [] [], .create "d" [] .medium [] [],
   .create "e" [] .high [] []]

/-- The task created by `createTask initSys "x" [] .high [] []`. -/
def c2WitT : Task :=
  { id := 0, taskType := "x", inputData := [], priority := .high,
    dependencies := [], metadata := [], createdAt := 0, lastActivity := 1 }

theorem c2_priority_fifo_witness :
    (drain (run c2Cmds)).Pairwise ord ∧
    (∀ e2 ∈ (updateTaskStatus (createTask initSys "x" [] .high [] []).2 0
        .failed none (some "m")).2.tm.taskQueue,
      e2 ∈ (createTask initSys "x" [] .high [] []).2.tm.taskQueue ∨
        (e2.tid = c2WitT.id ∧ e2.pri = c2WitT.priority.val ∧
          e2.created = c2WitT.createdAt)) :=
  ⟨c2_priority_fifo.1 c2Cmds,
   c2_priority_fifo.2 (createTask initSys "x" [] .high [] []).2 0 c2WitT none
     (some "m") rfl⟩

end ADH
